import Mathlib

set_option linter.dupNamespace false

/-!
# grpcerrors: mapping a wrapped Go error to a gRPC status

A shallow embedding of `maperror.go`, `grpc.go` and `errdetails/status.go`.

Go values are modelled as follows.

* An interface value that may be nil (`proto.Message`, `*status.Status`, a pointer to a
  detail record) is an `Option`; `none` is the nil value.
* A capability probed with a type assertion (`err.(grpcCoder)` and the like) is an optional
  field of the node: `none` means the assertion fails, `some v` means it succeeds and the
  method returns `v`.
* An error chain is the finite list of nodes reached by repeated `errors.Unwrap`, outermost
  first.
* The functions of `google.golang.org/grpc/status` used by the source (`New`, `FromError`,
  `Err`, `WithDetails`) are embedded with their library behaviour.
-/

namespace GrpcErrors

/-! ## Package `codes` -/

namespace codes

/-- The type `codes.Code`: an unsigned number; the source only stores and compares it. -/
abbrev Code := Nat

def OK : Code := 0
def Canceled : Code := 1
def Unknown : Code := 2
def InvalidArgument : Code := 3
def DeadlineExceeded : Code := 4
def NotFound : Code := 5
def AlreadyExists : Code := 6
def PermissionDenied : Code := 7
def ResourceExhausted : Code := 8
def FailedPrecondition : Code := 9
def Aborted : Code := 10
def OutOfRange : Code := 11
def Unimplemented : Code := 12
def Internal : Code := 13
def Unavailable : Code := 14
def DataLoss : Code := 15
def Unauthenticated : Code := 16

/-- The method `Code.String`: the name of a code, as printed in a status error text. -/
def Code.String (c : Code) : String :=
  match c with
  | 0 => "OK"
  | 1 => "Canceled"
  | 2 => "Unknown"
  | 3 => "InvalidArgument"
  | 4 => "DeadlineExceeded"
  | 5 => "NotFound"
  | 6 => "AlreadyExists"
  | 7 => "PermissionDenied"
  | 8 => "ResourceExhausted"
  | 9 => "FailedPrecondition"
  | 10 => "Aborted"
  | 11 => "OutOfRange"
  | 12 => "Unimplemented"
  | 13 => "Internal"
  | 14 => "Unavailable"
  | 15 => "DataLoss"
  | 16 => "Unauthenticated"
  | n => "Code(" ++ toString n ++ ")"

end codes

/-! ## Detail messages (package `errdetails` of the RPC error model) -/

/-- The message `errdetails.BadRequest_FieldViolation`. -/
structure BadRequest_FieldViolation where
  Field : String
  Description : String
deriving DecidableEq, Repr

/-- A non-nil `proto.Message`. The three catalogue messages the source and its tests use are
spelled out; `other` stands for any further message type a detail producer may return. -/
inductive Message where
  | ErrorInfo (Reason Domain : String) (Metadata : List (String × String))
  | BadRequest (FieldViolations : List (Option BadRequest_FieldViolation))
  | RequestInfo (RequestId ServingData : String)
  | other (fullName : String) (fields : List (String × String))
deriving DecidableEq, Repr

/-! ## Annotation records (package `jerrdetails`) and the code carrier -/

/-- The record `jerrdetails.FieldViolation`. -/
structure FieldViolation where
  Field : String
  Violation : String
deriving DecidableEq, Repr

/-- The record `jerrdetails.FieldViolations`. Its `Violations` slice holds pointers; every
entry is dereferenced by `fieldValidationsToProto`, so the entries are the pointed-to
records. -/
structure FieldViolations where
  Violations : List FieldViolation
deriving DecidableEq, Repr

/-- The record `jerrdetails.Reason`. -/
structure Reason where
  Reason : String
  Domain : String
deriving DecidableEq, Repr

/-- The record `errdetails.CodeDetail` of this repository. -/
structure CodeDetail where
  Code : codes.Code
deriving DecidableEq, Repr

/-- The method `(*CodeDetail).GRPCCode`. -/
def CodeDetail.GRPCCode (c : CodeDetail) : codes.Code :=
  c.Code

/-- The constructor `Code` of `grpc.go`. -/
def Code (code : codes.Code) : CodeDetail :=
  { Code := code }

/-- A value of a details list (`interface{}`), by the dynamic type the source inspects.

* `nil`: the nil interface value.
* `detailer`: a value of any type with an `ErrorDetail()` method, with what that method
  returns and, when the type also has `GRPCCode()`, the code it reports.
* `fieldViolations` / `fieldViolationsRef`: a `jerrdetails.FieldViolations` value, or a
  pointer to one (`none` is the nil pointer).
* `reason` / `reasonRef`: a `jerrdetails.Reason` value, or a pointer to one.
* `codeDetail`: a (non-nil) `*errdetails.CodeDetail`, as built by `Code`.
* `other`: a value of any other type, with the code it reports when the type has
  `GRPCCode()`.

The records of `jerrdetails` have neither `ErrorDetail()` nor `GRPCCode()`. -/
inductive DetailValue where
  | nil
  | detailer (ErrorDetail : Option Message) (GRPCCode : Option codes.Code)
  | fieldViolations (d : FieldViolations)
  | fieldViolationsRef (d : Option FieldViolations)
  | reason (d : Reason)
  | reasonRef (d : Option Reason)
  | codeDetail (d : CodeDetail)
  | other (GRPCCode : Option codes.Code)
deriving DecidableEq, Repr

/-- The type assertion `d.(grpcCoder)` on a details-list value followed by `GRPCCode()`:
`none` when the value has no such method. -/
def DetailValue.grpcCoder : DetailValue → Option codes.Code
  | .detailer _ c => c
  | .codeDetail d => some d.GRPCCode
  | .other c => c
  | _ => none

/-! ## Package `status` -/

/-- A non-nil `*status.Status`: code, message and the detail messages it carries. -/
structure Status where
  code : codes.Code
  message : String
  details : List Message
deriving DecidableEq, Repr

/-- One node of an error chain: its `Error()` text and the optional capabilities the
source probes for. `ErrorDetail = some none` is a node whose `ErrorDetail()` returns nil. -/
structure ErrorNode where
  Error : String
  GRPCCode : Option codes.Code
  GRPCMessage : Option String
  Details : Option (List DetailValue)
  ErrorDetail : Option (Option Message)
deriving DecidableEq, Repr

/-- A Go `error` value: nil, the error form of a status (the only type with
`GRPCStatus()`), or a chain of nodes linked by `Unwrap`, outermost first. -/
inductive GoError where
  | nil
  | status (s : Status)
  | chain (head : ErrorNode) (tail : List ErrorNode)
deriving DecidableEq, Repr

/-- A node with a text and no capability, such as `errors.New` makes. -/
def errorsNew (text : String) : ErrorNode :=
  { Error := text, GRPCCode := none, GRPCMessage := none, Details := none, ErrorDetail := none }

/-- The method `Error()` of an error value. The status form prints code and message; on
nil Go panics, which the source never reaches. -/
def GoError.Error : GoError → String
  | .nil => ""
  | .status s => "rpc error: code = " ++ codes.Code.String s.code ++ " desc = " ++ s.message
  | .chain head _ => head.Error

namespace status

/-- The function `status.New`. -/
def New (c : codes.Code) (msg : String) : Status :=
  { code := c, message := msg, details := [] }

/-- The method `(*Status).Code`, nil-safe: a nil status has code OK. -/
def Code : Option Status → codes.Code
  | none => codes.OK
  | some s => s.code

/-- The method `(*Status).Err`: nil when the code is OK, else the error form. -/
def Err (s : Option Status) : GoError :=
  match s with
  | none => .nil
  | some st => if st.code = codes.OK then .nil else .status st

/-- The function `status.FromError`, as the type assertion on the error value itself: a
nil error is (nil, true); the error form of a status gives that status back; anything
else gives an Unknown status and false. -/
def FromError (err : GoError) : Option Status × Bool :=
  match err with
  | .nil => (none, true)
  | .status s => (some s, true)
  | e => (some (New codes.Unknown e.Error), false)

/-- The marshalling loop of `WithDetails`: every detail is packed in turn and appended.
The protobuf library refuses to marshal a nil message, which stops the loop with an error
(`none`); the non-nil messages of this model are well-formed and are always packed. -/
def marshalDetails : List (Option Message) → List Message → Option (List Message)
  | [], acc => some acc
  | none :: _, _ => none
  | some m :: rest, acc => marshalDetails rest (acc ++ [m])

/-- The method `(*Status).WithDetails`: fails on a status with code OK and when a detail
cannot be marshalled; otherwise returns a copy with the details appended. -/
def WithDetails (s : Status) (details : List (Option Message)) : Option Status × GoError :=
  if s.code = codes.OK then
    (none, .chain (errorsNew "no error details for status with code OK") [])
  else
    match marshalDetails details s.details with
    | none => (none, .chain (errorsNew "proto: Marshal called with nil") [])
    | some ds => (some { s with details := ds }, .nil)

end status

/-! ## The detail converter (`maperror.go`) -/

/-- The function `reasonToProto`. -/
def reasonToProto (d : Option Reason) : Option Message :=
  match d with
  | none => none
  | some r => some (.ErrorInfo r.Reason r.Domain [])

/-- The function `fieldValidationsToProto`: a slice of `len(d.Violations)` nil entries is
allocated and the loop stores the converted violation at each index. -/
def fieldValidationsToProto (d : Option FieldViolations) : Option Message :=
  match d with
  | none => none
  | some fv =>
    let r0 : List (Option BadRequest_FieldViolation) := List.replicate fv.Violations.length none
    let r := fv.Violations.enum.foldl
      (fun r iv => r.set iv.1 (some { Field := iv.2.Field, Description := iv.2.Violation })) r0
    some (.BadRequest r)

/-- The body of the loop of `detailsToProto`: what one value of the list does to the
result slice `r`. In the `errorDetailer` case the guard of the source compares `d`, the
value itself, with nil (not `dd`, the message it returned). -/
def detailsToProtoStep (r : List (Option Message)) (errDetail : DetailValue) :
    List (Option Message) :=
  if errDetail = DetailValue.nil then r
  else
    match errDetail with
    | .detailer dd _ => if errDetail ≠ DetailValue.nil then r ++ [dd] else r
    | .fieldViolations d => r ++ [fieldValidationsToProto (some d)]
    | .fieldViolationsRef d => r ++ [fieldValidationsToProto d]
    | .reason d => r ++ [reasonToProto (some d)]
    | .reasonRef d => r ++ [reasonToProto d]
    | _ => r

/-- The function `detailsToProto`. -/
def detailsToProto (details : List DetailValue) : List (Option Message) :=
  details.foldl detailsToProtoStep []

/-! ## The chain walker (`MapErrorToStatus`) -/

/-- The local variables of `MapErrorToStatus`. -/
structure WalkState where
  code : codes.Code
  codeSet : Bool
  message : String
  messageSet : Bool
  errDetails : List (Option Message)
deriving DecidableEq, Repr

/-- The initial values of the local variables. -/
def WalkState.init : WalkState :=
  { code := codes.Unknown, codeSet := false, message := "", messageSet := false,
    errDetails := [] }

/-- The inner loop over a details list: the first value that reports a code sets the code
while it is unset. -/
def detailCodeStep (s : WalkState) (d : DetailValue) : WalkState :=
  match d.grpcCoder with
  | some c => if !s.codeSet then { s with code := c, codeSet := true } else s
  | none => s

/-- One iteration of the outer loop of `MapErrorToStatus`, on the node `err`. -/
def walkStep (s : WalkState) (err : ErrorNode) : WalkState :=
  let s1 :=
    match err.GRPCCode with
    | some c => if !s.codeSet then { s with code := c, codeSet := true } else s
    | none => s
  let s2 :=
    match err.GRPCMessage with
    | some m => if !s1.messageSet then { s1 with message := m, messageSet := true } else s1
    | none => s1
  let s3 :=
    match err.Details with
    | some ds =>
      if !s2.messageSet then
        let s2a := ds.foldl detailCodeStep s2
        let d := detailsToProto ds
        if d.length > 0 then { s2a with errDetails := s2a.errDetails ++ d } else s2a
      else s2
    | none => s2
  match err.ErrorDetail with
  | some (some d) => { s3 with errDetails := s3.errDetails ++ [some d] }
  | _ => s3

/-- The outer loop of `MapErrorToStatus` over the chain, outermost node first. -/
def walk (chain : List ErrorNode) : WalkState :=
  chain.foldl walkStep WalkState.init

/-- The nodes visited from an error value by repeated `errors.Unwrap`. -/
def GoError.nodes : GoError → List ErrorNode
  | .chain head tail => head :: tail
  | _ => []

/-- The function `MapErrorToStatus`: the returned status (nil is `none`) and error. -/
def MapErrorToStatus (originalError : GoError) : Option Status × GoError :=
  match status.FromError originalError with
  | (st, true) => (st, .nil)
  | (_, false) =>
    let w := walk originalError.nodes
    let message := if !w.messageSet then originalError.Error else w.message
    let st := status.New w.code message
    if w.errDetails.length > 0 then status.WithDetails st w.errDetails
    else (some st, .nil)

/-- The function returned by `MapErrorInterceptor`: the unary interceptor, called with the
context, the request, the call information and the handler. It returns the response and
the error. -/
def MapErrorInterceptor {Ctx Req Info Resp : Type} (ctx : Ctx) (req : Req) (_info : Info)
    (handler : Ctx → Req → Resp × GoError) : Resp × GoError :=
  match handler ctx req with
  | (resp, .nil) => (resp, .nil)
  | (resp, err) =>
    match MapErrorToStatus err with
    | (st, .nil) => (resp, status.Err st)
    | (st, _) => (resp, status.Err st)

/-- A call made by the interceptor: of the handler, with its two arguments, or of
`MapErrorToStatus`, with its argument. -/
inductive Call (Ctx Req : Type) where
  | handler (ctx : Ctx) (req : Req)
  | MapErrorToStatus (err : GoError)

/-- The calls the function returned by `MapErrorInterceptor` makes, in order: the same
control flow as `MapErrorInterceptor`, recording each call instead of its result. -/
def MapErrorInterceptorCalls {Ctx Req Info Resp : Type} (ctx : Ctx) (req : Req) (_info : Info)
    (handler : Ctx → Req → Resp × GoError) : List (Call Ctx Req) :=
  match handler ctx req with
  | (_, .nil) => [Call.handler ctx req]
  | (_, err) => [Call.handler ctx req, Call.MapErrorToStatus err]

/-- The error value with the given nodes as its chain (nil for no node). -/
def GoError.ofNodes : List ErrorNode → GoError
  | [] => .nil
  | head :: tail => .chain head tail

/-- The message `MapErrorToStatus` passes to `status.New` after the loop: the text of
`originalError` when the loop set no message. -/
def finalMessage (originalError : GoError) (w : WalkState) : String :=
  if !w.messageSet then originalError.Error else w.message

/-- The condition under which the last step of `MapErrorToStatus` fails: details were
collected and `WithDetails` rejects them, because the code is OK or a collected detail is
a nil message. -/
def attachFails (w : WalkState) : Prop :=
  w.errDetails ≠ [] ∧ (w.code = codes.OK ∨ none ∈ w.errDetails)

instance (w : WalkState) : Decidable (attachFails w) := by
  unfold attachFails
  infer_instance

/-- What the details list of a node converts to (nothing for a node without the
capability). -/
def ErrorNode.listDetails (n : ErrorNode) : List (Option Message) :=
  match n.Details with
  | some ds => detailsToProto ds
  | none => []

/-- What the node's own `ErrorDetail()` adds: the message when it is not nil. -/
def ErrorNode.ownDetail (n : ErrorNode) : List (Option Message) :=
  match n.ErrorDetail with
  | some (some d) => [some d]
  | _ => []

/-- A recognized, non-nil value of a details list: a detail producer, a reason (value or
non-nil reference) or a field-violation list (value or non-nil reference). -/
def DetailValue.recognized : DetailValue → Prop
  | .detailer _ _ => True
  | .fieldViolations _ => True
  | .fieldViolationsRef (some _) => True
  | .reason _ => True
  | .reasonRef (some _) => True
  | _ => False

instance (a : DetailValue) : Decidable a.recognized := by
  unfold DetailValue.recognized
  split <;> infer_instance

/-- A chain of two plain errors, as made by wrapping `errors.New`. -/
def plainChain : GoError :=
  .chain (errorsNew "random error") [errorsNew "random error"]

/-- A node that itself reports the code OK and has a detail message of its own. -/
def okCoderWithDetail : ErrorNode :=
  { Error := "outer", GRPCCode := some codes.OK, GRPCMessage := none, Details := none,
    ErrorDetail := some (some (Message.RequestInfo "123" "")) }

/-- A node that itself reports the given code and has no other capability. -/
def coderNode (text : String) (c : codes.Code) : ErrorNode :=
  { Error := text, GRPCCode := some c, GRPCMessage := none, Details := none,
    ErrorDetail := none }

/-- A wrapping node with the given text and details list and no other capability. -/
def wrapNode (text : String) (ds : List DetailValue) : ErrorNode :=
  { Error := text, GRPCCode := none, GRPCMessage := none, Details := some ds,
    ErrorDetail := none }

/-- A wrapping node that overrides the message. -/
def messengerNode (text msg : String) : ErrorNode :=
  { Error := text, GRPCCode := none, GRPCMessage := some msg, Details := none,
    ErrorDetail := none }

/-- A plain error wrapped by two nodes that each override the message. -/
def overrideChain : GoError :=
  .chain (errorsNew "outer")
    [messengerNode "middle" "first override", messengerNode "inner" "second override"]

/-- A value of a details list that is nil or of a kind the converter does not know:
neither a detail producer, nor a reason, nor a field-violation list. -/
def DetailValue.unrecognizedOrNil : DetailValue → Prop
  | .nil => True
  | .codeDetail _ => True
  | .other _ => True
  | _ => False

instance (a : DetailValue) : Decidable a.unrecognizedOrNil := by
  unfold DetailValue.unrecognizedOrNil
  split <;> infer_instance

/-- Two states of the local variables that agree on everything but the code. -/
def sameButCode (s t : WalkState) : Prop :=
  s.message = t.message ∧ s.messageSet = t.messageSet ∧ s.errDetails = t.errDetails

/-- The node `n` with its details list replaced by `ds`. -/
def ErrorNode.withDetails (n : ErrorNode) (ds : List DetailValue) : ErrorNode :=
  { n with Details := some ds }

/-- The node `n` without its details-list capability. -/
def ErrorNode.dropDetails (n : ErrorNode) : ErrorNode :=
  { n with Details := none }

/-- The details of a chain as the claim on accumulation order words them: node by node in
chain order, first the converted details list of the node, only if the message is unset
at that node (`messageSet` is the flag on reaching the node; the node's own message
override counts), then the node's own detail when it is not nil. -/
def detailsInChainOrder : Bool → List ErrorNode → List (Option Message)
  | _, [] => []
  | messageSet, n :: rest =>
    (if (messageSet || n.GRPCMessage.isSome) then [] else n.listDetails) ++ n.ownDetail ++
      detailsInChainOrder (messageSet || n.GRPCMessage.isSome) rest

/-- A handler that ignores its arguments and returns the given response and error. -/
def constHandler {Resp : Type} (resp : Resp) (err : GoError) : Unit → Unit → Resp × GoError :=
  fun _ _ => (resp, err)

/-- The error `Wrap(errors.New("random error"), ds...)`: a wrapping node with the details
list `ds` around a plain error, both with the text of the plain error. -/
def wrapped (ds : List DetailValue) : GoError :=
  .chain (wrapNode "random error" ds) [errorsNew "random error"]

/-- A wrapping node that overrides the message and has a details list. -/
def messengerWithDetails (text msg : String) (ds : List DetailValue) : ErrorNode :=
  { Error := text, GRPCCode := none, GRPCMessage := some msg, Details := some ds,
    ErrorDetail := none }

/-- A node with a detail message of its own and no other capability. -/
def detailerNode (text : String) (d : Message) : ErrorNode :=
  { Error := text, GRPCCode := none, GRPCMessage := none, Details := none,
    ErrorDetail := some (some d) }

/-- A recognized, non-nil value of a details list that has a message to give: a detail
producer whose `ErrorDetail()` returns a message, a reason (value or non-nil reference) or
a field-violation list (value or non-nil reference). -/
def DetailValue.givesMessage : DetailValue → Prop
  | .detailer (some _) _ => True
  | .fieldViolations _ => True
  | .fieldViolationsRef (some _) => True
  | .reason _ => True
  | .reasonRef (some _) => True
  | _ => False

instance (a : DetailValue) : Decidable a.givesMessage := by
  unfold DetailValue.givesMessage
  split <;> infer_instance

/-! ## Lemmas on the detail converter -/

/-- The indexed stores of `fieldValidationsToProto` fill the allocated slice with the
converted entries, in order. -/
theorem foldl_set_enumFrom {α β : Type} (g : α → β) (z : β) (l : List α) :
    ∀ (k : Nat) (pre : List β), pre.length = k →
      (l.enumFrom k).foldl (fun r iv => r.set iv.1 (g iv.2)) (pre ++ List.replicate l.length z)
        = pre ++ l.map g := by
  induction l with
  | nil => intro k pre _; simp
  | cons a t ih =>
    intro k pre hk
    have hset : (pre ++ List.replicate (t.length + 1) z).set k (g a)
        = (pre ++ [g a]) ++ List.replicate t.length z := by
      rw [List.set_append_right k (g a) (by omega)]
      simp [hk, List.replicate_succ]
    simp only [List.enumFrom_cons, List.foldl_cons, List.length_cons, hset]
    rw [ih (k + 1) (pre ++ [g a]) (by simp [hk])]
    simp

/-- Closed form of `fieldValidationsToProto` on a non-nil list. -/
theorem fieldValidationsToProto_some (d : FieldViolations) :
    fieldValidationsToProto (some d) = some (.BadRequest
      (d.Violations.map fun v => some { Field := v.Field, Description := v.Violation })) := by
  have h := foldl_set_enumFrom
    (fun v : FieldViolation =>
      (some { Field := v.Field, Description := v.Violation } : Option BadRequest_FieldViolation))
    none d.Violations 0 [] rfl
  simp only [List.nil_append] at h
  simp only [fieldValidationsToProto, List.enum]
  rw [h]

/-- One step of the conversion loop only appends to the result slice. -/
theorem detailsToProtoStep_append (r : List (Option Message)) (a : DetailValue) :
    detailsToProtoStep r a = r ++ detailsToProtoStep [] a := by
  cases a <;> simp [detailsToProtoStep]

/-- The conversion loop started from a slice `r` appends the conversion of the list. -/
theorem foldl_detailsToProtoStep (l : List DetailValue) :
    ∀ r : List (Option Message), l.foldl detailsToProtoStep r = r ++ detailsToProto l := by
  induction l with
  | nil => intro r; simp [detailsToProto]
  | cons a t ih =>
    intro r
    simp only [detailsToProto, List.foldl_cons]
    rw [ih (detailsToProtoStep r a), ih (detailsToProtoStep [] a), detailsToProtoStep_append r a,
      List.append_assoc]

theorem detailsToProto_nil : detailsToProto [] = [] := rfl

theorem detailsToProto_cons (a : DetailValue) (l : List DetailValue) :
    detailsToProto (a :: l) = detailsToProto [a] ++ detailsToProto l := by
  show List.foldl detailsToProtoStep (detailsToProtoStep [] a) l = _
  rw [foldl_detailsToProtoStep]
  rfl

theorem detailsToProto_append (xs ys : List DetailValue) :
    detailsToProto (xs ++ ys) = detailsToProto xs ++ detailsToProto ys := by
  simp only [detailsToProto, List.foldl_append]
  rw [foldl_detailsToProtoStep ys]
  rfl

/-! ## Lemmas on the chain walker -/

theorem marshalDetails_of_mem (ds : List (Option Message)) :
    ∀ acc, none ∈ ds → status.marshalDetails ds acc = none := by
  induction ds with
  | nil => intro acc h; simp at h
  | cons d t ih =>
    intro acc h
    cases d with
    | none => rfl
    | some m =>
      have ht : none ∈ t := by simpa using h
      simpa [status.marshalDetails] using ih (acc ++ [m]) ht

theorem marshalDetails_of_not_mem (ds : List (Option Message)) :
    ∀ acc, none ∉ ds → status.marshalDetails ds acc = some (acc ++ ds.filterMap id) := by
  induction ds with
  | nil => intro acc _; simp [status.marshalDetails]
  | cons d t ih =>
    intro acc h
    cases d with
    | none => simp at h
    | some m =>
      have ht : none ∉ t := by
        intro hm
        exact h (List.mem_cons_of_mem _ hm)
      simp [status.marshalDetails, ih (acc ++ [m]) ht]

/-- The inner loop over a details list touches only the code. -/
theorem foldl_detailCodeStep_frame (l : List DetailValue) :
    ∀ s : WalkState, (l.foldl detailCodeStep s).message = s.message ∧
      (l.foldl detailCodeStep s).messageSet = s.messageSet ∧
      (l.foldl detailCodeStep s).errDetails = s.errDetails := by
  induction l with
  | nil => intro s; simp
  | cons a t ih =>
    intro s
    have h := ih (detailCodeStep s a)
    have hs : (detailCodeStep s a).message = s.message ∧
        (detailCodeStep s a).messageSet = s.messageSet ∧
        (detailCodeStep s a).errDetails = s.errDetails := by
      unfold detailCodeStep
      cases a.grpcCoder <;> cases s.codeSet <;> simp
    simp only [List.foldl_cons]
    exact ⟨h.1.trans hs.1, h.2.1.trans hs.2.1, h.2.2.trans hs.2.2⟩

/-- Once the code is set, the inner loop leaves it alone. -/
theorem foldl_detailCodeStep_codeSet (l : List DetailValue) :
    ∀ s : WalkState, s.codeSet = true → l.foldl detailCodeStep s = s := by
  induction l with
  | nil => intro s _; rfl
  | cons a t ih =>
    intro s hs
    have h1 : detailCodeStep s a = s := by
      unfold detailCodeStep
      cases a.grpcCoder <;> simp [hs]
    simp only [List.foldl_cons, h1]
    exact ih s hs

theorem foldl_detailCodeStep_message (l : List DetailValue) (s : WalkState) :
    (l.foldl detailCodeStep s).message = s.message :=
  (foldl_detailCodeStep_frame l s).1

theorem foldl_detailCodeStep_messageSet (l : List DetailValue) (s : WalkState) :
    (l.foldl detailCodeStep s).messageSet = s.messageSet :=
  (foldl_detailCodeStep_frame l s).2.1

theorem foldl_detailCodeStep_errDetails (l : List DetailValue) (s : WalkState) :
    (l.foldl detailCodeStep s).errDetails = s.errDetails :=
  (foldl_detailCodeStep_frame l s).2.2

/-- The message flag after one node. -/
theorem walkStep_messageSet (s : WalkState) (n : ErrorNode) :
    (walkStep s n).messageSet = (s.messageSet || n.GRPCMessage.isSome) := by
  obtain ⟨c, cs, m, ms, ds⟩ := s
  obtain ⟨t, gc, gm, gd, ge⟩ := n
  cases gc <;> cases gm <;> cases gd <;> cases ms <;> cases cs <;>
    rcases ge with _ | _ | _ <;>
    simp [walkStep, foldl_detailCodeStep_messageSet] <;>
    split <;> simp [foldl_detailCodeStep_messageSet]

/-- The message after one node. -/
theorem walkStep_message (s : WalkState) (n : ErrorNode) :
    (walkStep s n).message = if s.messageSet then s.message else n.GRPCMessage.getD s.message := by
  obtain ⟨c, cs, m, ms, ds⟩ := s
  obtain ⟨t, gc, gm, gd, ge⟩ := n
  cases gc <;> cases gm <;> cases gd <;> cases ms <;> cases cs <;>
    rcases ge with _ | _ | _ <;>
    simp [walkStep, foldl_detailCodeStep_message] <;>
    split <;> simp [foldl_detailCodeStep_message]

/-- The details after one node: the converted details list, when the message is unset
after the message step, then the node's own detail. -/
theorem walkStep_errDetails (s : WalkState) (n : ErrorNode) :
    (walkStep s n).errDetails = s.errDetails ++
      (if (s.messageSet || n.GRPCMessage.isSome) then [] else n.listDetails) ++ n.ownDetail := by
  obtain ⟨c, cs, m, ms, ds⟩ := s
  obtain ⟨t, gc, gm, gd, ge⟩ := n
  cases gc <;> cases gm <;> cases gd <;> cases ms <;> cases cs <;>
    rcases ge with _ | _ | _ <;>
    simp [walkStep, foldl_detailCodeStep_errDetails, ErrorNode.listDetails,
      ErrorNode.ownDetail] <;>
    split <;> simp_all [foldl_detailCodeStep_errDetails]

/-- Once the code is set, a node does not change it. -/
theorem walkStep_code_of_codeSet (s : WalkState) (n : ErrorNode) (h : s.codeSet = true) :
    (walkStep s n).code = s.code ∧ (walkStep s n).codeSet = true := by
  obtain ⟨c, cs, m, ms, ds⟩ := s
  obtain ⟨t, gc, gm, gd, ge⟩ := n
  simp only at h
  subst h
  cases gc <;> cases gm <;> cases gd <;> cases ms <;>
    rcases ge with _ | _ | _ <;>
    simp [walkStep, foldl_detailCodeStep_codeSet] <;>
    split <;> simp

/-- Once the code is set, the rest of the chain does not change it. -/
theorem foldl_walkStep_code_of_codeSet (l : List ErrorNode) :
    ∀ s : WalkState, s.codeSet = true → (l.foldl walkStep s).code = s.code := by
  induction l with
  | nil => intro s _; rfl
  | cons n t ih =>
    intro s hs
    have h := walkStep_code_of_codeSet s n hs
    simp only [List.foldl_cons]
    rw [ih (walkStep s n) h.2, h.1]

/-- The message flag after the loop: set on entry, or some node overrides the message. -/
theorem foldl_walkStep_messageSet (l : List ErrorNode) :
    ∀ s : WalkState, (l.foldl walkStep s).messageSet =
      (s.messageSet || (l.findSome? fun n => n.GRPCMessage).isSome) := by
  induction l with
  | nil => intro s; simp
  | cons n t ih =>
    intro s
    simp only [List.foldl_cons, ih, walkStep_messageSet, List.findSome?_cons]
    cases n.GRPCMessage <;> simp

/-- The message after the loop: the one on entry when set, else the first override. -/
theorem foldl_walkStep_message (l : List ErrorNode) :
    ∀ s : WalkState, (l.foldl walkStep s).message =
      if s.messageSet then s.message
      else (l.findSome? fun n => n.GRPCMessage).getD s.message := by
  induction l with
  | nil => intro s; simp
  | cons n t ih =>
    intro s
    simp only [List.foldl_cons, ih, walkStep_messageSet, walkStep_message, List.findSome?_cons]
    cases n.GRPCMessage <;> cases s.messageSet <;> simp

/-- The message the status is built with: the first override in chain order, else the
text of the outermost error. -/
theorem finalMessage_chain (head : ErrorNode) (tail : List ErrorNode) :
    finalMessage (.chain head tail) (walk (head :: tail)) =
      ((head :: tail).findSome? fun n => n.GRPCMessage).getD head.Error := by
  unfold finalMessage walk
  rw [foldl_walkStep_messageSet, foldl_walkStep_message]
  cases ((head :: tail).findSome? fun n => n.GRPCMessage) <;>
    simp [WalkState.init, GoError.Error]

/-- The function `MapErrorToStatus` on a chain, unfolded past the status check. -/
theorem MapErrorToStatus_chain (head : ErrorNode) (tail : List ErrorNode) :
    MapErrorToStatus (.chain head tail) =
      if (walk (head :: tail)).errDetails.length > 0 then
        status.WithDetails
          (status.New (walk (head :: tail)).code
            (finalMessage (.chain head tail) (walk (head :: tail))))
          (walk (head :: tail)).errDetails
      else
        (some (status.New (walk (head :: tail)).code
          (finalMessage (.chain head tail) (walk (head :: tail)))), .nil) := rfl

/-- When attaching the details does not fail, the status is returned with no error. -/
theorem MapErrorToStatus_chain_ok (head : ErrorNode) (tail : List ErrorNode)
    (h : ¬ attachFails (walk (head :: tail))) :
    MapErrorToStatus (.chain head tail) =
      (some { code := (walk (head :: tail)).code,
              message := finalMessage (.chain head tail) (walk (head :: tail)),
              details := (walk (head :: tail)).errDetails.filterMap id }, .nil) := by
  rw [MapErrorToStatus_chain]
  unfold attachFails at h
  by_cases hd : (walk (head :: tail)).errDetails = []
  · simp [hd, status.New]
  · have hlen : (walk (head :: tail)).errDetails.length > 0 := List.length_pos.mpr hd
    have hc : ¬ (walk (head :: tail)).code = codes.OK := fun hc => h ⟨hd, Or.inl hc⟩
    have hn : none ∉ (walk (head :: tail)).errDetails := fun hn => h ⟨hd, Or.inr hn⟩
    simp [hlen, status.WithDetails, status.New, hc, marshalDetails_of_not_mem _ _ hn]

/-- When attaching the details fails, an error and no status is returned. -/
theorem MapErrorToStatus_chain_fail (head : ErrorNode) (tail : List ErrorNode)
    (h : attachFails (walk (head :: tail))) :
    ∃ err, MapErrorToStatus (.chain head tail) = (none, err) ∧ err ≠ .nil := by
  rw [MapErrorToStatus_chain]
  obtain ⟨hd, hf⟩ := h
  have hlen : (walk (head :: tail)).errDetails.length > 0 := List.length_pos.mpr hd
  by_cases hc : (walk (head :: tail)).code = codes.OK
  · exact ⟨.chain (errorsNew "no error details for status with code OK") [],
      by simp [hlen, status.WithDetails, status.New, hc], by simp⟩
  · have hn : none ∈ (walk (head :: tail)).errDetails := by
      rcases hf with hf | hf
      · exact absurd hf hc
      · exact hf
    exact ⟨.chain (errorsNew "proto: Marshal called with nil") [],
      by simp [hlen, status.WithDetails, status.New, hc, marshalDetails_of_mem _ _ hn], by simp⟩

/-- A node without any capability leaves the local variables as they are. -/
theorem walkStep_of_no_capability (s : WalkState) (n : ErrorNode)
    (h : n.GRPCCode = none ∧ n.GRPCMessage = none ∧ n.ErrorDetail = none ∧ n.Details = none) :
    walkStep s n = s := by
  obtain ⟨h1, h2, h3, h4⟩ := h
  simp [walkStep, h1, h2, h3, h4]

theorem foldl_walkStep_of_no_capability (l : List ErrorNode) :
    ∀ s : WalkState,
      (∀ n ∈ l, n.GRPCCode = none ∧ n.GRPCMessage = none ∧ n.ErrorDetail = none ∧
        n.Details = none) →
      l.foldl walkStep s = s := by
  induction l with
  | nil => intro s _; rfl
  | cons n t ih =>
    intro s h
    simp only [List.foldl_cons]
    rw [walkStep_of_no_capability s n (h n (List.mem_cons_self n t))]
    exact ih s fun m hm => h m (List.mem_cons_of_mem n hm)

/-- A single value converts to at most one entry. -/
theorem detailsToProto_singleton_length (a : DetailValue) : (detailsToProto [a]).length ≤ 1 := by
  cases a <;> simp [detailsToProto, detailsToProtoStep]

/-- A recognized value converts to exactly one entry. -/
theorem detailsToProto_singleton_of_recognized (a : DetailValue) (h : a.recognized) :
    ∃ m, detailsToProto [a] = [m] := by
  cases a <;> simp [detailsToProto, detailsToProtoStep, DetailValue.recognized] at h ⊢

theorem detailsToProto_eq_flatten (xs : List DetailValue) :
    detailsToProto xs = (xs.map fun a => detailsToProto [a]).flatten := by
  induction xs with
  | nil => rfl
  | cons a t ih =>
    rw [detailsToProto_cons, ih]
    simp

theorem detailsToProto_of_recognized (xs : List DetailValue) :
    (∀ a ∈ xs, a.recognized) →
      (detailsToProto xs).length = xs.length ∧
      ∀ (i : Nat) (a : DetailValue), xs[i]? = some a →
        ∃ m, detailsToProto [a] = [m] ∧ (detailsToProto xs)[i]? = some m := by
  induction xs with
  | nil => intro _; simp [detailsToProto_nil]
  | cons b t ih =>
    intro h
    obtain ⟨mb, hmb⟩ := detailsToProto_singleton_of_recognized b (h b (List.mem_cons_self b t))
    obtain ⟨hl, hi⟩ := ih fun a ha => h a (List.mem_cons_of_mem b ha)
    rw [detailsToProto_cons, hmb]
    refine ⟨by simp [hl], ?_⟩
    intro i a hia
    cases i with
    | zero =>
      have hab : b = a := by simpa using hia
      subst hab
      exact ⟨mb, hmb, by simp⟩
    | succ j =>
      have hja : t[j]? = some a := by simpa using hia
      obtain ⟨m, hm1, hm2⟩ := hi j a hja
      exact ⟨m, hm1, by simpa using hm2⟩

/-- A node that reports a code sets it when it is still unset. -/
theorem walkStep_code_of_coder (s : WalkState) (n : ErrorNode) (a : codes.Code)
    (hs : s.codeSet = false) (hn : n.GRPCCode = some a) :
    (walkStep s n).code = a ∧ (walkStep s n).codeSet = true := by
  obtain ⟨c, cs, m, ms, ds⟩ := s
  obtain ⟨t, gc, gm, gd, ge⟩ := n
  simp only at hs hn
  subst hs hn
  cases gm <;> cases gd <;> cases ms <;>
    rcases ge with _ | _ | _ <;>
    simp [walkStep, foldl_detailCodeStep_codeSet] <;>
    split <;> simp

/-- The code after walking a chain whose outermost node reports a code. -/
theorem walk_code_of_outer_coder (A : ErrorNode) (rest : List ErrorNode) (a : codes.Code)
    (hA : A.GRPCCode = some a) : (walk (A :: rest)).code = a := by
  have h := walkStep_code_of_coder WalkState.init A a rfl hA
  show (rest.foldl walkStep (walkStep WalkState.init A)).code = a
  rw [foldl_walkStep_code_of_codeSet rest _ h.2, h.1]

theorem MapErrorToStatus_nil : MapErrorToStatus GoError.nil = (none, GoError.nil) := rfl

theorem MapErrorToStatus_status (s : Status) :
    MapErrorToStatus (GoError.status s) = (some s, GoError.nil) := rfl

/-- A nil or unrecognized value converts to nothing. -/
theorem detailsToProto_singleton_of_unrecognizedOrNil (a : DetailValue)
    (h : a.unrecognizedOrNil) : detailsToProto [a] = [] := by
  cases a <;> simp [detailsToProto, detailsToProtoStep, DetailValue.unrecognizedOrNil] at h ⊢

/-- Inserting a nil or unrecognized value anywhere in a list does not change the
conversion of the list. -/
theorem detailsToProto_insert_unrecognizedOrNil (a : DetailValue) (h : a.unrecognizedOrNil)
    (xs ys : List DetailValue) :
    detailsToProto (xs ++ a :: ys) = detailsToProto (xs ++ ys) := by
  rw [detailsToProto_append, detailsToProto_append, detailsToProto_cons,
    detailsToProto_singleton_of_unrecognizedOrNil a h]
  rfl

/-- A value that reports no code is skipped by the inner loop. -/
theorem foldl_detailCodeStep_insert (a : DetailValue) (h : a.grpcCoder = none)
    (xs ys : List DetailValue) (s : WalkState) :
    (xs ++ a :: ys).foldl detailCodeStep s = (xs ++ ys).foldl detailCodeStep s := by
  simp [List.foldl_append, detailCodeStep, h]

/-- Two nodes with the same message override that contribute the same details move
states that agree up to the code to states that agree up to the code. -/
theorem walkStep_sameButCode (s t : WalkState) (n m : ErrorNode) (h : sameButCode s t)
    (hm : n.GRPCMessage = m.GRPCMessage) (hl : n.listDetails = m.listDetails)
    (ho : n.ownDetail = m.ownDetail) : sameButCode (walkStep s n) (walkStep t m) := by
  obtain ⟨h1, h2, h3⟩ := h
  refine ⟨?_, ?_, ?_⟩
  · rw [walkStep_message, walkStep_message, h1, h2, hm]
  · rw [walkStep_messageSet, walkStep_messageSet, h2, hm]
  · rw [walkStep_errDetails, walkStep_errDetails, h2, h3, hm, hl, ho]

theorem foldl_walkStep_sameButCode (l : List ErrorNode) :
    ∀ s t : WalkState, sameButCode s t →
      sameButCode (l.foldl walkStep s) (l.foldl walkStep t) := by
  induction l with
  | nil => intro s t h; exact h
  | cons n r ih =>
    intro s t h
    exact ih _ _ (walkStep_sameButCode s t n n h rfl rfl rfl)

/-- Inserting a nil or unrecognized value in the details list of one node of a chain
changes at most the code the walk ends with. -/
theorem walk_insert_sameButCode (a : DetailValue) (h : a.unrecognizedOrNil)
    (xs ys : List DetailValue) (n : ErrorNode) (pre post : List ErrorNode) :
    sameButCode (walk (pre ++ n.withDetails (xs ++ a :: ys) :: post))
      (walk (pre ++ n.withDetails (xs ++ ys) :: post)) := by
  unfold walk
  rw [List.foldl_append, List.foldl_append, List.foldl_cons, List.foldl_cons]
  apply foldl_walkStep_sameButCode
  exact walkStep_sameButCode _ _ _ _ ⟨rfl, rfl, rfl⟩ rfl
    (by simp [ErrorNode.listDetails, ErrorNode.withDetails,
      detailsToProto_insert_unrecognizedOrNil a h xs ys]) rfl

/-- Inserting a nil or unrecognized value that reports no code changes nothing. -/
theorem walk_insert_eq (a : DetailValue) (h : a.unrecognizedOrNil) (hc : a.grpcCoder = none)
    (xs ys : List DetailValue) (n : ErrorNode) (pre post : List ErrorNode) :
    walk (pre ++ n.withDetails (xs ++ a :: ys) :: post) =
      walk (pre ++ n.withDetails (xs ++ ys) :: post) := by
  unfold walk
  rw [List.foldl_append, List.foldl_append, List.foldl_cons, List.foldl_cons]
  congr 1
  simp [walkStep, ErrorNode.withDetails, detailsToProto_insert_unrecognizedOrNil a h xs ys,
    foldl_detailCodeStep_insert a hc xs ys]

/-- A status returned for a chain carries the message and the details of the walk. -/
theorem MapErrorToStatus_chain_status (head : ErrorNode) (tail : List ErrorNode) (st : Status)
    (h : (MapErrorToStatus (GoError.chain head tail)).1 = some st) :
    st.message = finalMessage (GoError.chain head tail) (walk (head :: tail)) ∧
    st.details = (walk (head :: tail)).errDetails.filterMap id := by
  by_cases hf : attachFails (walk (head :: tail))
  · obtain ⟨err, h1, _⟩ := MapErrorToStatus_chain_fail head tail hf
    rw [h1] at h
    cases h
  · rw [MapErrorToStatus_chain_ok head tail hf] at h
    cases h
    exact ⟨rfl, rfl⟩

/-- A recognized value that has a message to give converts to exactly that one message. -/
theorem detailsToProto_singleton_of_givesMessage (a : DetailValue) (h : a.givesMessage) :
    ∃ m : Message, detailsToProto [a] = [some m] := by
  cases a with
  | nil => simp [DetailValue.givesMessage] at h
  | detailer dd c =>
    cases dd with
    | none => simp [DetailValue.givesMessage] at h
    | some m => exact ⟨m, by simp [detailsToProto, detailsToProtoStep]⟩
  | fieldViolations d =>
    exact ⟨Message.BadRequest
        (d.Violations.map fun v => some { Field := v.Field, Description := v.Violation }),
      by simp [detailsToProto, detailsToProtoStep, fieldValidationsToProto_some]⟩
  | fieldViolationsRef d =>
    cases d with
    | none => simp [DetailValue.givesMessage] at h
    | some v =>
      exact ⟨Message.BadRequest
          (v.Violations.map fun w => some { Field := w.Field, Description := w.Violation }),
        by simp [detailsToProto, detailsToProtoStep, fieldValidationsToProto_some]⟩
  | reason d =>
    exact ⟨Message.ErrorInfo d.Reason d.Domain [],
      by simp [detailsToProto, detailsToProtoStep, reasonToProto]⟩
  | reasonRef d =>
    cases d with
    | none => simp [DetailValue.givesMessage] at h
    | some v =>
      exact ⟨Message.ErrorInfo v.Reason v.Domain [],
        by simp [detailsToProto, detailsToProtoStep, reasonToProto]⟩
  | codeDetail d => simp [DetailValue.givesMessage] at h
  | other c => simp [DetailValue.givesMessage] at h

/-- A list of recognized values that each have a message to give converts to as many
messages, none of them nil, each at the position of its value. -/
theorem detailsToProto_of_givesMessage (xs : List DetailValue) :
    (∀ a ∈ xs, a.givesMessage) →
      (detailsToProto xs).length = xs.length ∧
      none ∉ detailsToProto xs ∧
      ∀ (i : Nat) (a : DetailValue), xs[i]? = some a →
        ∃ m : Message, detailsToProto [a] = [some m] ∧
          (detailsToProto xs)[i]? = some (some m) := by
  induction xs with
  | nil => intro _; simp [detailsToProto_nil]
  | cons b t ih =>
    intro h
    obtain ⟨mb, hmb⟩ := detailsToProto_singleton_of_givesMessage b (h b (List.mem_cons_self b t))
    obtain ⟨hl, hn, hi⟩ := ih fun a ha => h a (List.mem_cons_of_mem b ha)
    rw [detailsToProto_cons, hmb]
    refine ⟨by simp [hl], ?_, ?_⟩
    · intro hmem
      rcases List.mem_append.mp hmem with h1 | h1
      · simp at h1
      · exact hn h1
    · intro i a hia
      cases i with
      | zero =>
        have hab : b = a := by simpa using hia
        subst hab
        exact ⟨mb, hmb, by simp⟩
      | succ j =>
        have hja : t[j]? = some a := by simpa using hia
        obtain ⟨m, hm1, hm2⟩ := hi j a hja
        exact ⟨m, hm1, by simpa using hm2⟩

/-! ## The claims -/

/-- C1 (default fallback): for a non-nil error that is not already a status and none of
whose chain nodes exposes a code, a message override, a single detail or a details list,
`MapErrorToStatus` returns no error and a status with code Unknown, the text of the
original error as message and no details. -/
theorem C1_default_fallback (e : GoError) (hnil : e ≠ GoError.nil)
    (hst : (status.FromError e).2 = false)
    (hcap : ∀ n ∈ e.nodes, n.GRPCCode = none ∧ n.GRPCMessage = none ∧ n.ErrorDetail = none ∧
      n.Details = none) :
    MapErrorToStatus e =
      (some { code := codes.Unknown, message := e.Error, details := [] }, GoError.nil) := by
  cases e with
  | nil => exact absurd rfl hnil
  | status s => simp [status.FromError] at hst
  | chain head tail =>
    have hw : walk (head :: tail) = WalkState.init :=
      foldl_walkStep_of_no_capability (head :: tail) WalkState.init hcap
    rw [MapErrorToStatus_chain, hw]
    simp [WalkState.init, finalMessage, status.New]

/-- C1 at the error of the first test case: a plain error wrapped once. -/
theorem C1_default_fallback_witness :
    plainChain ≠ GoError.nil ∧ (status.FromError plainChain).2 = false ∧
    MapErrorToStatus plainChain =
      (some { code := codes.Unknown, message := "random error", details := [] }, GoError.nil) :=
  ⟨by decide, by decide,
    C1_default_fallback plainChain (by decide) (by decide)
      (by simp [plainChain, GoError.nodes, errorsNew])⟩

/-- C5 (detail order preservation): for a non-nil field-violation list `d`,
`fieldValidationsToProto` returns a bad-request message whose `FieldViolations` has
exactly `len(d.Violations)` entries, the entry at every index `i` being the non-nil
violation with `Field = d.Violations[i].Field` and
`Description = d.Violations[i].Violation`: same order, nothing merged or moved. -/
theorem C5_field_violations_order (d : FieldViolations) :
    ∃ vs, fieldValidationsToProto (some d) = some (Message.BadRequest vs) ∧
      vs.length = d.Violations.length ∧
      ∀ i : Nat, vs[i]? = (d.Violations[i]?).map fun v =>
        some { Field := v.Field, Description := v.Violation } := by
  refine ⟨_, fieldValidationsToProto_some d, by simp, ?_⟩
  intro i
  simp [List.getElem?_map]

/-- C6 (reason and domain round-trip): for a non-nil reason+domain pair `d`,
`reasonToProto` returns an error-info message whose `Reason` is `d.Reason` and whose
`Domain` is `d.Domain`, with an empty metadata map. -/
theorem C6_reason_round_trip (d : Reason) :
    reasonToProto (some d) = some (Message.ErrorInfo d.Reason d.Domain []) := by
  rfl

/-- C7 (value and reference equivalence): inside any details list, a field-violation list
held by value and a non-nil reference to the same list convert to identical detail
messages, and so do a reason+domain pair held by value and a non-nil reference to it. -/
theorem C7_value_reference_equivalence (v : FieldViolations) (r : Reason)
    (xs ys : List DetailValue) :
    detailsToProto (xs ++ DetailValue.fieldViolations v :: ys) =
        detailsToProto (xs ++ DetailValue.fieldViolationsRef (some v) :: ys) ∧
    detailsToProto (xs ++ DetailValue.reason r :: ys) =
        detailsToProto (xs ++ DetailValue.reasonRef (some r) :: ys) ∧
    detailsToProto [DetailValue.fieldViolations v] = [fieldValidationsToProto (some v)] ∧
    detailsToProto [DetailValue.reason r] = [reasonToProto (some r)] := by
  refine ⟨?_, ?_, ?_, ?_⟩
  · rw [detailsToProto_append, detailsToProto_append, detailsToProto_cons,
      detailsToProto_cons (DetailValue.fieldViolationsRef (some v))]
    rfl
  · rw [detailsToProto_append, detailsToProto_append, detailsToProto_cons,
      detailsToProto_cons (DetailValue.reasonRef (some r))]
    rfl
  · simp [detailsToProto, detailsToProtoStep]
  · simp [detailsToProto, detailsToProtoStep]

/-- C8, as stated, fails: a detail producer whose `ErrorDetail()` returns nil and a reason
are two recognized non-nil values, yet the output holds one message only; the entry at the
position of the producer is the nil message. -/
theorem C8_counterexample :
    (∀ a ∈ [DetailValue.detailer none none,
        DetailValue.reason { Reason := "reason", Domain := "domain" }], a.recognized) ∧
    detailsToProto [DetailValue.detailer none none,
        DetailValue.reason { Reason := "reason", Domain := "domain" }] =
      [none, some (Message.ErrorInfo "reason" "domain" [])] ∧
    ((detailsToProto [DetailValue.detailer none none,
        DetailValue.reason { Reason := "reason", Domain := "domain" }]).filterMap id).length
      = 1 ∧
    ((detailsToProto [DetailValue.detailer none none,
        DetailValue.reason { Reason := "reason", Domain := "domain" }]).filterMap id).length
      ≠ [DetailValue.detailer none none,
        DetailValue.reason { Reason := "reason", Domain := "domain" }].length := by
  decide

/-- C8 (batch conversion mirrors input order), amended: `detailsToProto` returns the
concatenation, in input order, of what each single value converts to, which is at most one
entry; it distributes over the concatenation of two lists; and on a list of `n` recognized
non-nil values that each have a message to give (detail producers whose `ErrorDetail()`
returns a message, reasons, field-violation lists) it returns `n` messages, none of them
nil, the message at each position being the conversion of the value at that position. -/
theorem C8_batch_mirrors_input_order (xs ys : List DetailValue) :
    detailsToProto xs = (xs.map fun a => detailsToProto [a]).flatten ∧
    (∀ a : DetailValue, (detailsToProto [a]).length ≤ 1) ∧
    detailsToProto (xs ++ ys) = detailsToProto xs ++ detailsToProto ys ∧
    ((∀ a ∈ xs, a.givesMessage) →
      (detailsToProto xs).length = xs.length ∧
      none ∉ detailsToProto xs ∧
      ∀ (i : Nat) (a : DetailValue), xs[i]? = some a →
        ∃ m : Message, detailsToProto [a] = [some m] ∧
          (detailsToProto xs)[i]? = some (some m)) :=
  ⟨detailsToProto_eq_flatten xs, detailsToProto_singleton_length,
    detailsToProto_append xs ys, detailsToProto_of_givesMessage xs⟩

/-- C8 at the five values of the converter test. -/
theorem C8_batch_mirrors_input_order_witness :
    (∀ a ∈ [DetailValue.detailer (some (Message.RequestInfo "123" "")) none,
         DetailValue.reason { Reason := "reason", Domain := "domain" },
         DetailValue.reasonRef (some { Reason := "reason", Domain := "domain" }),
         DetailValue.fieldViolations
           { Violations := [{ Field := "field1", Violation := "value1" }] },
         DetailValue.fieldViolationsRef
           (some { Violations := [{ Field := "field1", Violation := "value1" }] })],
      a.givesMessage) ∧
    detailsToProto
        [DetailValue.detailer (some (Message.RequestInfo "123" "")) none,
         DetailValue.reason { Reason := "reason", Domain := "domain" },
         DetailValue.reasonRef (some { Reason := "reason", Domain := "domain" }),
         DetailValue.fieldViolations
           { Violations := [{ Field := "field1", Violation := "value1" }] },
         DetailValue.fieldViolationsRef
           (some { Violations := [{ Field := "field1", Violation := "value1" }] })]
      = [some (Message.RequestInfo "123" ""),
         some (Message.ErrorInfo "reason" "domain" []),
         some (Message.ErrorInfo "reason" "domain" []),
         some (Message.BadRequest [some { Field := "field1", Description := "value1" }]),
         some (Message.BadRequest [some { Field := "field1", Description := "value1" }])] ∧
    (detailsToProto
        [DetailValue.detailer (some (Message.RequestInfo "123" "")) none,
         DetailValue.reason { Reason := "reason", Domain := "domain" },
         DetailValue.reasonRef (some { Reason := "reason", Domain := "domain" }),
         DetailValue.fieldViolations
           { Violations := [{ Field := "field1", Violation := "value1" }] },
         DetailValue.fieldViolationsRef
           (some { Violations := [{ Field := "field1", Violation := "value1" }] })]).length
      = 5 :=
  ⟨by decide, by decide,
    ((C8_batch_mirrors_input_order
      [DetailValue.detailer (some (Message.RequestInfo "123" "")) none,
       DetailValue.reason { Reason := "reason", Domain := "domain" },
       DetailValue.reasonRef (some { Reason := "reason", Domain := "domain" }),
       DetailValue.fieldViolations
         { Violations := [{ Field := "field1", Violation := "value1" }] },
       DetailValue.fieldViolationsRef
         (some { Violations := [{ Field := "field1", Violation := "value1" }] })] []).2.2.2
      (by decide)).1⟩

/-- C10 (the code at the failing input): a value of a details list whose `ErrorDetail()`
returns nil still makes `detailsToProto` append an entry, the nil message, so the output
gains an element; a chain node whose own `ErrorDetail()` returns nil adds nothing. -/
theorem C10_nil_producer_in_list_emits_nil_entry :
    detailsToProto [DetailValue.detailer none none] = [none] ∧
    (detailsToProto [DetailValue.detailer none none]).length = 1 ∧
    (walkStep WalkState.init
      { Error := "e", GRPCCode := none, GRPCMessage := none, Details := none,
        ErrorDetail := some none }).errDetails = [] := by
  decide

/-- C2, as stated, fails: the outer node reports the code OK and has a detail of its own,
an inner node reports NotFound; attaching the detail to a status with code OK is refused,
so no status with the outer code is returned, only an error. -/
theorem C2_counterexample :
    okCoderWithDetail.GRPCCode = some codes.OK ∧
    coderNode "inner" codes.NotFound ∈ [coderNode "inner" codes.NotFound] ∧
    (coderNode "inner" codes.NotFound).GRPCCode = some codes.NotFound ∧
    codes.OK ≠ codes.NotFound ∧
    (MapErrorToStatus
      (GoError.chain okCoderWithDetail [coderNode "inner" codes.NotFound])).1 = none ∧
    (MapErrorToStatus
      (GoError.chain okCoderWithDetail [coderNode "inner" codes.NotFound])).2 ≠ GoError.nil ∧
    ¬ ∃ st, (MapErrorToStatus
      (GoError.chain okCoderWithDetail [coderNode "inner" codes.NotFound])).1 = some st ∧
      st.code = codes.OK := by
  have h : (MapErrorToStatus
      (GoError.chain okCoderWithDetail [coderNode "inner" codes.NotFound])).1 = none := by
    decide
  refine ⟨rfl, by simp, rfl, by decide, h, by decide, ?_⟩
  rintro ⟨st, hst, _⟩
  rw [h] at hst
  cases hst

/-- C2 (first match wins for the code), amended: for a chain whose outermost node A
itself reports a code and which wraps, at any depth, a node B that reports a different
code, `MapErrorToStatus` either returns, with no error, a status whose code is the code of
A, or attaching the collected details fails (details were collected and the code of A is
OK or a collected detail is a nil message) and it returns an error and no status; the
code of B is never used. -/
theorem C2_first_code_wins (A B : ErrorNode) (rest : List ErrorNode) (a b : codes.Code)
    (hA : A.GRPCCode = some a) (_hB : B ∈ rest) (_hb : B.GRPCCode = some b) (hab : a ≠ b) :
    (walk (A :: rest)).code = a ∧ (walk (A :: rest)).code ≠ b ∧
    ((∃ st, MapErrorToStatus (GoError.chain A rest) = (some st, GoError.nil) ∧ st.code = a) ∨
     (∃ err, MapErrorToStatus (GoError.chain A rest) = (none, err) ∧ err ≠ GoError.nil ∧
        (walk (A :: rest)).errDetails ≠ [] ∧
        (a = codes.OK ∨ none ∈ (walk (A :: rest)).errDetails))) := by
  have hc : (walk (A :: rest)).code = a := walk_code_of_outer_coder A rest a hA
  refine ⟨hc, by rw [hc]; exact hab, ?_⟩
  by_cases hf : attachFails (walk (A :: rest))
  · obtain ⟨err, h1, h2⟩ := MapErrorToStatus_chain_fail A rest hf
    refine Or.inr ⟨err, h1, h2, hf.1, ?_⟩
    rw [← hc]
    exact hf.2
  · exact Or.inl ⟨_, MapErrorToStatus_chain_ok A rest hf, hc⟩

/-- C2 at a chain of three nodes, the outermost reporting NotFound, the innermost
Internal. -/
theorem C2_first_code_wins_witness :
    (coderNode "outer" codes.NotFound).GRPCCode = some codes.NotFound ∧
    (walk [coderNode "outer" codes.NotFound, errorsNew "middle",
      coderNode "inner" codes.Internal]).code = codes.NotFound ∧
    MapErrorToStatus (GoError.chain (coderNode "outer" codes.NotFound)
        [errorsNew "middle", coderNode "inner" codes.Internal]) =
      (some { code := codes.NotFound, message := "outer", details := [] }, GoError.nil) :=
  ⟨rfl,
    (C2_first_code_wins (coderNode "outer" codes.NotFound) (coderNode "inner" codes.Internal)
      [errorsNew "middle", coderNode "inner" codes.Internal] codes.NotFound codes.Internal
      rfl (by simp) rfl (by decide)).1,
    by decide⟩

/-- C3, as stated, fails: a wrapping node whose details list holds a code carrier with
code OK and a reason is not a status, yet `MapErrorToStatus` returns no status at all
(attaching the reason to a status with code OK is refused), so there is no status message
equal to the text of the original error. -/
theorem C3_counterexample :
    GoError.chain (wrapNode "random error"
        [DetailValue.codeDetail (Code codes.OK),
         DetailValue.reasonRef (some { Reason := "reason", Domain := "domain" })])
      [errorsNew "random error"] ≠ GoError.nil ∧
    (status.FromError (GoError.chain (wrapNode "random error"
        [DetailValue.codeDetail (Code codes.OK),
         DetailValue.reasonRef (some { Reason := "reason", Domain := "domain" })])
      [errorsNew "random error"])).2 = false ∧
    (MapErrorToStatus (GoError.chain (wrapNode "random error"
        [DetailValue.codeDetail (Code codes.OK),
         DetailValue.reasonRef (some { Reason := "reason", Domain := "domain" })])
      [errorsNew "random error"])).1.map Status.message ≠ some "random error" ∧
    (MapErrorToStatus (GoError.chain (wrapNode "random error"
        [DetailValue.codeDetail (Code codes.OK),
         DetailValue.reasonRef (some { Reason := "reason", Domain := "domain" })])
      [errorsNew "random error"])).1 = none := by
  decide

/-- C3 (message selection), amended: for a non-nil error that is not already a status,
`MapErrorToStatus` either returns, with no error, a status whose message is the
`GRPCMessage()` of the first node in chain order that exposes a message override, or, if
no node exposes one, the `Error()` text of the outermost error (never the text of an
inner cause); or attaching the collected details fails and it returns an error and no
status. -/
theorem C3_message_selection (e : GoError) (hnil : e ≠ GoError.nil)
    (hst : (status.FromError e).2 = false) :
    (∃ st, MapErrorToStatus e = (some st, GoError.nil) ∧
      st.message = (e.nodes.findSome? fun n => n.GRPCMessage).getD e.Error) ∨
    (∃ err, MapErrorToStatus e = (none, err) ∧ err ≠ GoError.nil ∧
      attachFails (walk e.nodes)) := by
  cases e with
  | nil => exact absurd rfl hnil
  | status s => simp [status.FromError] at hst
  | chain head tail =>
    by_cases hf : attachFails (walk (head :: tail))
    · obtain ⟨err, h1, h2⟩ := MapErrorToStatus_chain_fail head tail hf
      exact Or.inr ⟨err, h1, h2, hf⟩
    · exact Or.inl ⟨_, MapErrorToStatus_chain_ok head tail hf, finalMessage_chain head tail⟩

/-- C3 at a chain with two message overrides below a plain outermost node. -/
theorem C3_message_selection_witness :
    overrideChain ≠ GoError.nil ∧ (status.FromError overrideChain).2 = false ∧
    MapErrorToStatus overrideChain =
      (some { code := codes.Unknown, message := "first override", details := [] },
        GoError.nil) ∧
    ((∃ st, MapErrorToStatus overrideChain = (some st, GoError.nil) ∧
      st.message = (overrideChain.nodes.findSome? fun n => n.GRPCMessage).getD
        overrideChain.Error) ∨
    (∃ err, MapErrorToStatus overrideChain = (none, err) ∧ err ≠ GoError.nil ∧
      attachFails (walk overrideChain.nodes))) :=
  ⟨by decide, by decide, by decide,
    C3_message_selection overrideChain (by decide) (by decide)⟩

/-- C4, as stated, fails: for an error wrapped with the code carrier `Code(OK)` the
returned status has code OK, its error form is nil, and `MapErrorToStatus` of nil is the
nil status, not the status returned first. -/
theorem C4_counterexample :
    MapErrorToStatus (GoError.chain
        (wrapNode "random error" [DetailValue.codeDetail (Code codes.OK)])
        [errorsNew "random error"]) =
      (some { code := codes.OK, message := "random error", details := [] }, GoError.nil) ∧
    status.Err (MapErrorToStatus (GoError.chain
        (wrapNode "random error" [DetailValue.codeDetail (Code codes.OK)])
        [errorsNew "random error"])).1 = GoError.nil ∧
    (MapErrorToStatus (status.Err (MapErrorToStatus (GoError.chain
        (wrapNode "random error" [DetailValue.codeDetail (Code codes.OK)])
        [errorsNew "random error"])).1)).1 = none ∧
    (MapErrorToStatus (status.Err (MapErrorToStatus (GoError.chain
        (wrapNode "random error" [DetailValue.codeDetail (Code codes.OK)])
        [errorsNew "random error"])).1)).1 ≠
      (MapErrorToStatus (GoError.chain
        (wrapNode "random error" [DetailValue.codeDetail (Code codes.OK)])
        [errorsNew "random error"])).1 := by
  decide

/-- C4 (idempotence), amended: for any error `e` for which `MapErrorToStatus` does not
return a status with code OK, applying `MapErrorToStatus` to the error form `Err()` of the
status it returned yields that identical status, with no error. -/
theorem C4_idempotence (e : GoError)
    (h : ∀ st, (MapErrorToStatus e).1 = some st → st.code ≠ codes.OK) :
    MapErrorToStatus (status.Err (MapErrorToStatus e).1) =
      ((MapErrorToStatus e).1, GoError.nil) := by
  cases hres : (MapErrorToStatus e).1 with
  | none => rfl
  | some st =>
    have hc : st.code ≠ codes.OK := h st hres
    simp [status.Err, hc, MapErrorToStatus_status]

/-- C4 at an error wrapped with `Code(FailedPrecondition)` and a reason. -/
theorem C4_idempotence_witness :
    MapErrorToStatus (GoError.chain
        (wrapNode "random error"
          [DetailValue.codeDetail (Code codes.FailedPrecondition),
           DetailValue.reason { Reason := "reason", Domain := "domain" }])
        [errorsNew "random error"]) =
      (some { code := codes.FailedPrecondition, message := "random error",
              details := [Message.ErrorInfo "reason" "domain" []] }, GoError.nil) ∧
    MapErrorToStatus (status.Err (MapErrorToStatus (GoError.chain
        (wrapNode "random error"
          [DetailValue.codeDetail (Code codes.FailedPrecondition),
           DetailValue.reason { Reason := "reason", Domain := "domain" }])
        [errorsNew "random error"])).1) =
      ((MapErrorToStatus (GoError.chain
        (wrapNode "random error"
          [DetailValue.codeDetail (Code codes.FailedPrecondition),
           DetailValue.reason { Reason := "reason", Domain := "domain" }])
        [errorsNew "random error"])).1, GoError.nil) :=
  ⟨by decide,
    C4_idempotence _ (by
      intro st hst
      have hv : (MapErrorToStatus (GoError.chain
          (wrapNode "random error"
            [DetailValue.codeDetail (Code codes.FailedPrecondition),
             DetailValue.reason { Reason := "reason", Domain := "domain" }])
          [errorsNew "random error"])).1 =
          some { code := codes.FailedPrecondition, message := "random error",
                 details := [Message.ErrorInfo "reason" "domain" []] } := by decide
      rw [hv] at hst
      cases hst
      decide)⟩

/-- C9, as stated, fails for a code carrier: with the reason alone in the details list a
status with the message of the original error is returned; with the code carrier
`Code(OK)` added to the list no status is returned (attaching the reason to a status with
code OK is refused), so the message of the result is not the same. -/
theorem C9_counterexample :
    (DetailValue.codeDetail (Code codes.OK)).unrecognizedOrNil ∧
    (MapErrorToStatus (GoError.chain (wrapNode "random error"
        [DetailValue.reasonRef (some { Reason := "reason", Domain := "domain" })])
      [errorsNew "random error"])).1.map Status.message = some "random error" ∧
    (MapErrorToStatus (GoError.chain (wrapNode "random error"
        [DetailValue.codeDetail (Code codes.OK),
         DetailValue.reasonRef (some { Reason := "reason", Domain := "domain" })])
      [errorsNew "random error"])).1.map Status.message = none ∧
    (MapErrorToStatus (GoError.chain (wrapNode "random error"
        [DetailValue.codeDetail (Code codes.OK),
         DetailValue.reasonRef (some { Reason := "reason", Domain := "domain" })])
      [errorsNew "random error"])).1.map Status.message ≠
    (MapErrorToStatus (GoError.chain (wrapNode "random error"
        [DetailValue.reasonRef (some { Reason := "reason", Domain := "domain" })])
      [errorsNew "random error"])).1.map Status.message := by
  decide

/-- C9 (nil and unrecognized values are a no-op), amended: a value of a details list that
is nil or of a kind that is neither a detail producer, a reason nor a field-violation list
contributes no entry to the output of `detailsToProto`, wherever it stands in the list; in
`MapErrorToStatus`, wherever the node holding the list stands in the chain, the value
changes neither the message nor the details the status is built from; unless it is a code
carrier it changes nothing of the result; and whenever a status is returned both with and
without it, the two statuses have the same message and the same details (a code carrier
may change the code, and with it whether attaching the details succeeds). -/
theorem C9_unrecognized_is_noop (a : DetailValue) (ha : a.unrecognizedOrNil)
    (xs ys : List DetailValue) (n : ErrorNode) (pre post : List ErrorNode) :
    detailsToProto (xs ++ a :: ys) = detailsToProto (xs ++ ys) ∧
    sameButCode (walk (pre ++ n.withDetails (xs ++ a :: ys) :: post))
      (walk (pre ++ n.withDetails (xs ++ ys) :: post)) ∧
    (a.grpcCoder = none →
      MapErrorToStatus (GoError.ofNodes (pre ++ n.withDetails (xs ++ a :: ys) :: post)) =
        MapErrorToStatus (GoError.ofNodes (pre ++ n.withDetails (xs ++ ys) :: post))) ∧
    (∀ st st0 : Status,
      (MapErrorToStatus
        (GoError.ofNodes (pre ++ n.withDetails (xs ++ a :: ys) :: post))).1 = some st →
      (MapErrorToStatus
        (GoError.ofNodes (pre ++ n.withDetails (xs ++ ys) :: post))).1 = some st0 →
      st.message = st0.message ∧ st.details = st0.details) := by
  have hsame := walk_insert_sameButCode a ha xs ys n pre post
  refine ⟨detailsToProto_insert_unrecognizedOrNil a ha xs ys, hsame, ?_, ?_⟩
  · intro hc
    have hw := walk_insert_eq a ha hc xs ys n pre post
    cases pre with
    | nil =>
      simp only [List.nil_append] at hw
      simp only [List.nil_append, GoError.ofNodes]
      rw [MapErrorToStatus_chain, MapErrorToStatus_chain, hw]
      rfl
    | cons p ps =>
      simp only [List.cons_append] at hw
      simp only [List.cons_append, GoError.ofNodes]
      rw [MapErrorToStatus_chain, MapErrorToStatus_chain, hw]
      rfl
  · intro st st0 h1 h0
    obtain ⟨hm, hms, hd⟩ := hsame
    cases pre with
    | nil =>
      simp only [List.nil_append] at hm hms hd
      simp only [List.nil_append, GoError.ofNodes] at h1 h0
      obtain ⟨a1, b1⟩ := MapErrorToStatus_chain_status _ _ st h1
      obtain ⟨a0, b0⟩ := MapErrorToStatus_chain_status _ _ st0 h0
      rw [a1, a0, b1, b0, hd]
      refine ⟨?_, rfl⟩
      simp only [finalMessage, hm, hms]
      rfl
    | cons p ps =>
      simp only [List.cons_append] at hm hms hd
      simp only [List.cons_append, GoError.ofNodes] at h1 h0
      obtain ⟨a1, b1⟩ := MapErrorToStatus_chain_status _ _ st h1
      obtain ⟨a0, b0⟩ := MapErrorToStatus_chain_status _ _ st0 h0
      rw [a1, a0, b1, b0, hd]
      refine ⟨?_, rfl⟩
      simp only [finalMessage, hm, hms]
      rfl

/-- C9 at a value of an unknown kind placed between a reason and a nil value. -/
theorem C9_unrecognized_is_noop_witness :
    (DetailValue.other none).unrecognizedOrNil ∧
    detailsToProto
        ([DetailValue.reason { Reason := "reason", Domain := "domain" }] ++
          DetailValue.other none :: [DetailValue.nil]) =
      [some (Message.ErrorInfo "reason" "domain" [])] ∧
    MapErrorToStatus (GoError.ofNodes ([] ++
        (wrapNode "random error" []).withDetails
          ([DetailValue.reason { Reason := "reason", Domain := "domain" }] ++
            DetailValue.other none :: [DetailValue.nil]) :: [errorsNew "random error"])) =
      MapErrorToStatus (GoError.ofNodes ([] ++
        (wrapNode "random error" []).withDetails
          ([DetailValue.reason { Reason := "reason", Domain := "domain" }] ++
            [DetailValue.nil]) :: [errorsNew "random error"])) :=
  ⟨by decide, by decide,
    (C9_unrecognized_is_noop (DetailValue.other none) (by decide)
      [DetailValue.reason { Reason := "reason", Domain := "domain" }] [DetailValue.nil]
      (wrapNode "random error" []) [] [errorsNew "random error"]).2.2.1 rfl⟩

/-! ## Further lemmas on the chain walker -/

/-- The details after the loop are those on entry followed by the details of the chain in
chain order. -/
theorem foldl_walkStep_errDetails (l : List ErrorNode) :
    ∀ s : WalkState, (l.foldl walkStep s).errDetails =
      s.errDetails ++ detailsInChainOrder s.messageSet l := by
  induction l with
  | nil => intro s; simp [detailsInChainOrder]
  | cons n t ih =>
    intro s
    simp only [List.foldl_cons, ih, walkStep_errDetails, walkStep_messageSet,
      detailsInChainOrder, List.append_assoc]

theorem walk_errDetails (l : List ErrorNode) :
    (walk l).errDetails = detailsInChainOrder false l := by
  unfold walk
  rw [foldl_walkStep_errDetails]
  rfl

/-- Once the message is set, on entry or by the node itself, the details list of the node
is not consulted. -/
theorem walkStep_dropDetails (s : WalkState) (n : ErrorNode)
    (h : (s.messageSet || n.GRPCMessage.isSome) = true) :
    walkStep s n = walkStep s n.dropDetails := by
  obtain ⟨c, cs, m, ms, ds⟩ := s
  obtain ⟨t, gc, gm, gd, ge⟩ := n
  cases gc <;> cases gm <;> cases gd <;> cases ms <;> cases cs <;>
    simp_all [walkStep, ErrorNode.dropDetails]

/-- Once the message is set, no details list of the rest of the chain is consulted. -/
theorem foldl_walkStep_dropDetails (l : List ErrorNode) :
    ∀ s : WalkState, s.messageSet = true →
      l.foldl walkStep s = (l.map ErrorNode.dropDetails).foldl walkStep s := by
  induction l with
  | nil => intro s _; rfl
  | cons n t ih =>
    intro s hs
    have h1 : walkStep s n = walkStep s n.dropDetails :=
      walkStep_dropDetails s n (by simp [hs])
    have h2 : (walkStep s n).messageSet = true := by
      rw [walkStep_messageSet]
      simp [hs]
    simp only [List.map_cons, List.foldl_cons]
    rw [ih (walkStep s n) h2, h1]

/-- The first value of a details list that reports a code sets the code when it is
unset. -/
theorem foldl_detailCodeStep_first (ds : List DetailValue) (c : codes.Code) :
    ∀ s : WalkState, s.codeSet = false →
      (ds.findSome? fun d => d.grpcCoder) = some c →
      (ds.foldl detailCodeStep s).code = c ∧ (ds.foldl detailCodeStep s).codeSet = true := by
  induction ds with
  | nil => intro s _ h; simp at h
  | cons d t ih =>
    intro s hs h
    rw [List.findSome?_cons] at h
    cases hd : d.grpcCoder with
    | none =>
      rw [hd] at h
      have h1 : detailCodeStep s d = s := by simp [detailCodeStep, hd]
      simp only [List.foldl_cons, h1]
      exact ih s hs h
    | some c1 =>
      rw [hd] at h
      have hc : c1 = c := by simpa using h
      subst hc
      have h1 : detailCodeStep s d = { s with code := c1, codeSet := true } := by
        simp [detailCodeStep, hd, hs]
      simp only [List.foldl_cons, h1]
      rw [foldl_detailCodeStep_codeSet t _ rfl]
      exact ⟨rfl, rfl⟩

/-- A details list without a value that reports a code leaves the local variables as they
are. -/
theorem foldl_detailCodeStep_none (ds : List DetailValue) :
    ∀ s : WalkState, (ds.findSome? fun d => d.grpcCoder) = none →
      ds.foldl detailCodeStep s = s := by
  induction ds with
  | nil => intro s _; rfl
  | cons d t ih =>
    intro s h
    rw [List.findSome?_cons] at h
    cases hd : d.grpcCoder with
    | none =>
      rw [hd] at h
      have h1 : detailCodeStep s d = s := by simp [detailCodeStep, hd]
      simp only [List.foldl_cons, h1]
      exact ih s h
    | some c1 =>
      rw [hd] at h
      simp at h

/-- A node that reports no code and no message, reached with code and message unset, takes
the code of the first code carrier of its details list. -/
theorem walkStep_code_of_list (s : WalkState) (n : ErrorNode) (ds : List DetailValue)
    (c : codes.Code) (hcs : s.codeSet = false) (hms : s.messageSet = false)
    (hc : n.GRPCCode = none) (hm : n.GRPCMessage = none) (hd : n.Details = some ds)
    (hf : (ds.findSome? fun d => d.grpcCoder) = some c) :
    (walkStep s n).code = c ∧ (walkStep s n).codeSet = true := by
  obtain ⟨h1, h2⟩ := foldl_detailCodeStep_first ds c s hcs hf
  obtain ⟨t, gc, gm, gd, ge⟩ := n
  simp only at hc hm hd
  subst hc hm hd
  rcases ge with _ | _ | _ <;>
    simp [walkStep, hms] <;>
    split <;> simp [h1, h2]

/-- When no collected detail is nil, the details of the status are the collected ones. -/
theorem map_some_filterMap_id (l : List (Option Message)) (h : none ∉ l) :
    (l.filterMap id).map some = l := by
  induction l with
  | nil => rfl
  | cons d t ih =>
    cases d with
    | none => simp at h
    | some m =>
      have ht : none ∉ t := fun hm => h (List.mem_cons_of_mem _ hm)
      simp [ih ht]

/-- A node that reports no code and whose details list, if any, holds no value that
reports a code leaves the code as it is. -/
theorem walkStep_code_frame (s : WalkState) (n : ErrorNode) (hc : n.GRPCCode = none)
    (hd : ∀ ds, n.Details = some ds → (ds.findSome? fun d => d.grpcCoder) = none) :
    (walkStep s n).code = s.code ∧ (walkStep s n).codeSet = s.codeSet := by
  obtain ⟨t, gc, gm, gd, ge⟩ := n
  simp only at hc hd
  subst hc
  cases gd with
  | none =>
    cases gm <;> cases hms : s.messageSet <;>
      rcases ge with _ | _ | _ <;>
      simp [walkStep, hms]
  | some ds =>
    have hf := foldl_detailCodeStep_none ds
    have hn := hd ds rfl
    cases gm <;> cases hms : s.messageSet <;>
      rcases ge with _ | _ | _ <;>
      simp [walkStep, hms, hf _ hn] <;>
      split <;> simp

theorem foldl_walkStep_code_frame (l : List ErrorNode) :
    ∀ s : WalkState,
      (∀ n ∈ l, n.GRPCCode = none ∧
        ∀ ds, n.Details = some ds → (ds.findSome? fun d => d.grpcCoder) = none) →
      (l.foldl walkStep s).code = s.code ∧ (l.foldl walkStep s).codeSet = s.codeSet := by
  induction l with
  | nil => intro s _; exact ⟨rfl, rfl⟩
  | cons n t ih =>
    intro s h
    obtain ⟨h1, h2⟩ := h n (List.mem_cons_self n t)
    obtain ⟨a, b⟩ := walkStep_code_frame s n h1 h2
    obtain ⟨c, d⟩ := ih (walkStep s n) fun m hm => h m (List.mem_cons_of_mem n hm)
    simp only [List.foldl_cons]
    exact ⟨c.trans a, d.trans b⟩

/-- From a node that overrides the message on, the details lists play no part in the
walk. -/
theorem walk_dropDetails_from_messenger (pre post : List ErrorNode) (n : ErrorNode)
    (hm : n.GRPCMessage.isSome = true) :
    walk (pre ++ n :: post) =
      walk (pre ++ n.dropDetails :: post.map ErrorNode.dropDetails) := by
  unfold walk
  rw [List.foldl_append, List.foldl_append, List.foldl_cons, List.foldl_cons]
  have h1 : walkStep (List.foldl walkStep WalkState.init pre) n =
      walkStep (List.foldl walkStep WalkState.init pre) n.dropDetails :=
    walkStep_dropDetails _ n (by simp [hm])
  have h2 : (walkStep (List.foldl walkStep WalkState.init pre) n).messageSet = true := by
    rw [walkStep_messageSet]
    simp [hm]
  rw [foldl_walkStep_dropDetails post _ h2, h1]

/-- The function `MapErrorToStatus` depends on a chain through the walk and the text of
the outermost node only. -/
theorem MapErrorToStatus_ofNodes_congr (l l2 : List ErrorNode) (hw : walk l = walk l2)
    (he : (GoError.ofNodes l).Error = (GoError.ofNodes l2).Error)
    (hl : l = [] ↔ l2 = []) :
    MapErrorToStatus (GoError.ofNodes l) = MapErrorToStatus (GoError.ofNodes l2) := by
  cases l with
  | nil =>
    have h2 : l2 = [] := hl.mp rfl
    subst h2
    rfl
  | cons a t =>
    cases l2 with
    | nil =>
      have := hl.mpr rfl
      cases this
    | cons b u =>
      simp only [GoError.ofNodes] at he ⊢
      rw [MapErrorToStatus_chain, MapErrorToStatus_chain, hw]
      simp only [finalMessage, he]

/-- The text of an error does not depend on the details lists of its nodes. -/
theorem ofNodes_Error_dropDetails (pre post : List ErrorNode) (n : ErrorNode) :
    (GoError.ofNodes (pre ++ n :: post)).Error =
      (GoError.ofNodes (pre ++ n.dropDetails :: post.map ErrorNode.dropDetails)).Error := by
  cases pre <;> rfl

/-- The own detail of a node of the chain is among the details of the chain. -/
theorem ownDetail_subset_detailsInChainOrder (l : List ErrorNode) :
    ∀ (b : Bool) (n : ErrorNode), n ∈ l → ∀ d ∈ n.ownDetail, d ∈ detailsInChainOrder b l := by
  induction l with
  | nil => intro b n hn; simp at hn
  | cons a t ih =>
    intro b n hn d hd
    rcases List.mem_cons.mp hn with h | h
    · subst h
      simp [detailsInChainOrder, hd]
    · have := ih (b || a.GRPCMessage.isSome) n h d hd
      simp [detailsInChainOrder, this]

/-- The method `WithDetails` returns no status when it returns an error. -/
theorem WithDetails_fst_of_error (s : Status) (ds : List (Option Message))
    (h : (status.WithDetails s ds).2 ≠ GoError.nil) : (status.WithDetails s ds).1 = none := by
  unfold status.WithDetails at h ⊢
  by_cases hc : s.code = codes.OK
  · simp [hc]
  · cases hm : status.marshalDetails ds s.details with
    | none => simp [hc, hm]
    | some l => simp [hc, hm] at h

/-- A status returned for a chain carries the code of the walk. -/
theorem MapErrorToStatus_chain_code (head : ErrorNode) (tail : List ErrorNode) (st : Status)
    (h : (MapErrorToStatus (GoError.chain head tail)).1 = some st) :
    st.code = (walk (head :: tail)).code := by
  by_cases hf : attachFails (walk (head :: tail))
  · obtain ⟨err, h1, _⟩ := MapErrorToStatus_chain_fail head tail hf
    rw [h1] at h
    cases h
  · rw [MapErrorToStatus_chain_ok head tail hf] at h
    cases h
    rfl

/-- Nodes that override no message and contribute no detail add nothing to the details of
a chain. -/
theorem detailsInChainOrder_of_silent (l : List ErrorNode) :
    (∀ n ∈ l, n.GRPCMessage = none ∧ n.listDetails = [] ∧ n.ownDetail = []) →
      detailsInChainOrder false l = [] := by
  induction l with
  | nil => intro _; rfl
  | cons n t ih =>
    intro h
    obtain ⟨h1, h2, h3⟩ := h n (List.mem_cons_self n t)
    have ht := ih fun m hm => h m (List.mem_cons_of_mem n hm)
    simp [detailsInChainOrder, h1, h2, h3, ht]

/-- Without a message override in a list of nodes, the search for the first override finds
nothing. -/
theorem findSome_GRPCMessage_of_none (l : List ErrorNode)
    (h : ∀ n ∈ l, n.GRPCMessage = none) : (l.findSome? fun n => n.GRPCMessage) = none := by
  induction l with
  | nil => rfl
  | cons n t ih =>
    rw [List.findSome?_cons, h n (List.mem_cons_self n t)]
    exact ih fun m hm => h m (List.mem_cons_of_mem n hm)

/-! ## Lemmas on the interceptor -/

/-- On a handler failure the interceptor returns the response of the handler and the error
form of whatever status `MapErrorToStatus` returned. -/
theorem MapErrorInterceptor_of_error {Ctx Req Info Resp : Type} (ctx : Ctx) (req : Req)
    (info : Info) (handler : Ctx → Req → Resp × GoError) (resp : Resp) (err : GoError)
    (h : handler ctx req = (resp, err)) (herr : err ≠ GoError.nil) :
    MapErrorInterceptor ctx req info handler = (resp, status.Err (MapErrorToStatus err).1) := by
  unfold MapErrorInterceptor
  rw [h]
  cases err with
  | nil => exact absurd rfl herr
  | status s => rfl
  | chain head tail =>
    simp only
    split <;> simp_all

/-- Whenever `MapErrorToStatus` returns a non-nil error, the status it returns is nil. -/
theorem MapErrorToStatus_fst_of_error (e : GoError)
    (h : (MapErrorToStatus e).2 ≠ GoError.nil) : (MapErrorToStatus e).1 = none := by
  cases e with
  | nil => exact absurd rfl h
  | status s => exact absurd rfl h
  | chain head tail =>
    by_cases hf : attachFails (walk (head :: tail))
    · obtain ⟨err, h1, _⟩ := MapErrorToStatus_chain_fail head tail hf
      rw [h1]
    · rw [MapErrorToStatus_chain_ok head tail hf] at h
      exact absurd rfl h

/-- Whenever `MapErrorToStatus` fails on the error of the handler, the interceptor returns
the error form of the nil status, which is the nil error. -/
theorem MapErrorInterceptor_of_assembler_failure {Ctx Req Info Resp : Type} (ctx : Ctx)
    (req : Req) (info : Info) (handler : Ctx → Req → Resp × GoError) (resp : Resp)
    (err : GoError) (h : handler ctx req = (resp, err)) (herr : err ≠ GoError.nil)
    (hfail : (MapErrorToStatus err).2 ≠ GoError.nil) :
    MapErrorInterceptor ctx req info handler = (resp, GoError.nil) := by
  rw [MapErrorInterceptor_of_error ctx req info handler resp err h herr,
    MapErrorToStatus_fst_of_error err hfail]
  rfl

/-! ## The claims on the interceptor and the code carrier -/

/-- C15 (the code carrier reports its code): for every status code `c`, `Code(c)` is a
code carrier whose `Code` field is `c` and whose `GRPCCode()` returns `c`; in a details
list it is found by the `grpcCoder` assertion with that code. -/
theorem C15_code_carrier_reports_code (c : codes.Code) :
    (Code c).Code = c ∧ (Code c).GRPCCode = c ∧
    (DetailValue.codeDetail (Code c)).grpcCoder = some c :=
  ⟨rfl, rfl, rfl⟩

/-- C14 (success pass-through): when the handler, called with the incoming context and
request, returns `(resp, nil)`, the interceptor returns exactly `(resp, nil)`, and the only
call it makes is the one call of the handler with that context and request:
`MapErrorToStatus` is not called. -/
theorem C14_success_pass_through {Ctx Req Info Resp : Type} (ctx : Ctx) (req : Req)
    (info : Info) (handler : Ctx → Req → Resp × GoError) (resp : Resp)
    (h : handler ctx req = (resp, GoError.nil)) :
    MapErrorInterceptor ctx req info handler = (resp, GoError.nil) ∧
    MapErrorInterceptorCalls ctx req info handler = [Call.handler ctx req] := by
  unfold MapErrorInterceptor MapErrorInterceptorCalls
  rw [h]
  exact ⟨rfl, rfl⟩

/-- C14 at the handler of the test: it returns the response "fake response" and no
error. -/
theorem C14_success_pass_through_witness :
    constHandler "fake response" GoError.nil () () = ("fake response", GoError.nil) ∧
    MapErrorInterceptor () () () (constHandler "fake response" GoError.nil) =
      ("fake response", GoError.nil) ∧
    MapErrorInterceptorCalls () () () (constHandler "fake response" GoError.nil) =
      [Call.handler () ()] :=
  ⟨rfl, C14_success_pass_through () () () (constHandler "fake response" GoError.nil)
    "fake response" rfl⟩

/-- C12, as stated, fails: a handler that fails with an error wrapped with the code
carrier `Code(OK)` gets a status with code OK, whose error form is nil, so the interceptor
returns a nil error for a handler failure. -/
theorem C12_counterexample :
    (constHandler "response" (wrapped [DetailValue.codeDetail (Code codes.OK)]) () ()).2 ≠
      GoError.nil ∧
    MapErrorToStatus (wrapped [DetailValue.codeDetail (Code codes.OK)]) =
      (some { code := codes.OK, message := "random error", details := [] }, GoError.nil) ∧
    MapErrorInterceptor () () ()
      (constHandler "response" (wrapped [DetailValue.codeDetail (Code codes.OK)])) =
      ("response", GoError.nil) := by
  decide

/-- C12 (handler failures are encoded as status errors), amended: for every handler that
returns a non-nil error, the interceptor returns the response of the handler unchanged;
when `MapErrorToStatus` returns a status whose code is not OK, the returned error is
non-nil and is the error form of that status, from which `status.FromError` recovers it;
when the status has code OK the returned error is nil. -/
theorem C12_failures_encoded_as_status {Ctx Req Info Resp : Type} (ctx : Ctx) (req : Req)
    (info : Info) (handler : Ctx → Req → Resp × GoError) (resp : Resp) (err : GoError)
    (h : handler ctx req = (resp, err)) (herr : err ≠ GoError.nil) :
    (MapErrorInterceptor ctx req info handler).1 = resp ∧
    (∀ st : Status, (MapErrorToStatus err).1 = some st → st.code ≠ codes.OK →
      (MapErrorInterceptor ctx req info handler).2 = GoError.status st ∧
      (MapErrorInterceptor ctx req info handler).2 ≠ GoError.nil ∧
      status.FromError (MapErrorInterceptor ctx req info handler).2 = (some st, true)) ∧
    (∀ st : Status, (MapErrorToStatus err).1 = some st → st.code = codes.OK →
      (MapErrorInterceptor ctx req info handler).2 = GoError.nil) := by
  rw [MapErrorInterceptor_of_error ctx req info handler resp err h herr]
  refine ⟨rfl, ?_, ?_⟩
  · intro st hst hc
    simp [hst, status.Err, hc, status.FromError]
  · intro st hst hc
    simp [hst, status.Err, hc]

/-- C12 at a handler that fails with an error wrapped with `Code(FailedPrecondition)`. -/
theorem C12_failures_encoded_as_status_witness :
    wrapped [DetailValue.codeDetail (Code codes.FailedPrecondition)] ≠ GoError.nil ∧
    (MapErrorInterceptor () () ()
      (constHandler "response"
        (wrapped [DetailValue.codeDetail (Code codes.FailedPrecondition)]))).1 = "response" ∧
    (MapErrorInterceptor () () ()
      (constHandler "response"
        (wrapped [DetailValue.codeDetail (Code codes.FailedPrecondition)]))).2 =
      GoError.status
        { code := codes.FailedPrecondition, message := "random error", details := [] } :=
  ⟨by decide,
    (C12_failures_encoded_as_status () () ()
      (constHandler "response"
        (wrapped [DetailValue.codeDetail (Code codes.FailedPrecondition)]))
      "response" (wrapped [DetailValue.codeDetail (Code codes.FailedPrecondition)])
      rfl (by decide)).1,
    ((C12_failures_encoded_as_status () () ()
      (constHandler "response"
        (wrapped [DetailValue.codeDetail (Code codes.FailedPrecondition)]))
      "response" (wrapped [DetailValue.codeDetail (Code codes.FailedPrecondition)])
      rfl (by decide)).2.1
      { code := codes.FailedPrecondition, message := "random error", details := [] }
      (by decide) (by decide)).1⟩

/-- C13 (the code at the failing input): the handler fails with an error wrapped with
`Code(NotFound)` and a nil reference to a reason. The walk extracts the code NotFound and
the message of the error, attaching the nil detail fails, `MapErrorToStatus` returns an
error and the nil status, and the interceptor returns the error form of that nil status:
a nil error. -/
theorem C13_interceptor_returns_nil_on_assembler_failure :
    (walk (wrapped [DetailValue.codeDetail (Code codes.NotFound),
      DetailValue.reasonRef none]).nodes).code = codes.NotFound ∧
    finalMessage
      (wrapped [DetailValue.codeDetail (Code codes.NotFound), DetailValue.reasonRef none])
      (walk (wrapped [DetailValue.codeDetail (Code codes.NotFound),
        DetailValue.reasonRef none]).nodes) = "random error" ∧
    (MapErrorToStatus (wrapped [DetailValue.codeDetail (Code codes.NotFound),
      DetailValue.reasonRef none])).1 = none ∧
    (MapErrorToStatus (wrapped [DetailValue.codeDetail (Code codes.NotFound),
      DetailValue.reasonRef none])).2 ≠ GoError.nil ∧
    MapErrorInterceptor () () ()
      (constHandler "response"
        (wrapped [DetailValue.codeDetail (Code codes.NotFound), DetailValue.reasonRef none])) =
      ("response", GoError.nil) := by
  decide

/-- C20 (the code at the failing input): `reasonToProto(nil)` and
`fieldValidationsToProto(nil)` return nil, and for a nil reference to a reason or to a
field-violation list in a details list `detailsToProto` appends that nil message, so its
output has an element that is no detail message. -/
theorem C20_nil_reference_emits_nil_entry :
    reasonToProto none = none ∧ fieldValidationsToProto none = none ∧
    detailsToProto [DetailValue.reasonRef none] = [none] ∧
    detailsToProto [DetailValue.fieldViolationsRef none] = [none] ∧
    none ∈ detailsToProto
      [DetailValue.reason { Reason := "reason", Domain := "domain" },
       DetailValue.reasonRef none] := by
  decide

/-! ## The claims on the walk -/

/-- C16 (asymmetric guard): the details list of a node is consulted only while the
message is unset. For a chain whose node at some position overrides the message, the
details lists of that node and of every node after it play no part: the walk, and the
result of `MapErrorToStatus`, are those of the chain with these lists removed, so the
lists contribute no detail and cannot set the code; when moreover no node reports a code
itself and no earlier details list holds a code carrier, the code stays Unknown. -/
theorem C16_asymmetric_guard (pre post : List ErrorNode) (n : ErrorNode) (m : String)
    (hm : n.GRPCMessage = some m) :
    walk (pre ++ n :: post) =
      walk (pre ++ n.dropDetails :: post.map ErrorNode.dropDetails) ∧
    MapErrorToStatus (GoError.ofNodes (pre ++ n :: post)) =
      MapErrorToStatus
        (GoError.ofNodes (pre ++ n.dropDetails :: post.map ErrorNode.dropDetails)) ∧
    ((∀ k ∈ pre ++ n :: post, k.GRPCCode = none) →
      (∀ k ∈ pre, ∀ ds, k.Details = some ds → (ds.findSome? fun d => d.grpcCoder) = none) →
      (walk (pre ++ n :: post)).code = codes.Unknown) := by
  have hw := walk_dropDetails_from_messenger pre post n (by simp [hm])
  refine ⟨hw, ?_, ?_⟩
  · exact MapErrorToStatus_ofNodes_congr _ _ hw (ofNodes_Error_dropDetails pre post n)
      (by simp)
  · intro hcode hpre
    rw [hw]
    have h := foldl_walkStep_code_frame
      (pre ++ n.dropDetails :: post.map ErrorNode.dropDetails) WalkState.init (by
        intro k hk
        rcases List.mem_append.mp hk with h1 | h1
        · exact ⟨hcode k (List.mem_append_left _ h1), hpre k h1⟩
        · rcases List.mem_cons.mp h1 with h2 | h2
          · subst h2
            refine ⟨hcode n (by simp), ?_⟩
            intro ds hds
            simp [ErrorNode.dropDetails] at hds
          · obtain ⟨q, hq, rfl⟩ := List.mem_map.mp h2
            refine ⟨hcode q (by simp [hq]), ?_⟩
            intro ds hds
            simp [ErrorNode.dropDetails] at hds)
    exact h.1

/-- C16 at a chain whose second node overrides the message and holds a code carrier and a
reason in its details list, as does the node after it: the status has code Unknown, the
override as message and no details. -/
theorem C16_asymmetric_guard_witness :
    (messengerWithDetails "middle" "override"
      [DetailValue.codeDetail (Code codes.NotFound),
       DetailValue.reason { Reason := "reason", Domain := "domain" }]).GRPCMessage =
      some "override" ∧
    MapErrorToStatus (GoError.ofNodes ([errorsNew "outer"] ++
      messengerWithDetails "middle" "override"
        [DetailValue.codeDetail (Code codes.NotFound),
         DetailValue.reason { Reason := "reason", Domain := "domain" }] ::
      [wrapNode "inner" [DetailValue.codeDetail (Code codes.Internal),
         DetailValue.reason { Reason := "reason", Domain := "domain" }]])) =
      (some { code := codes.Unknown, message := "override", details := [] }, GoError.nil) ∧
    walk ([errorsNew "outer"] ++
      messengerWithDetails "middle" "override"
        [DetailValue.codeDetail (Code codes.NotFound),
         DetailValue.reason { Reason := "reason", Domain := "domain" }] ::
      [wrapNode "inner" [DetailValue.codeDetail (Code codes.Internal),
         DetailValue.reason { Reason := "reason", Domain := "domain" }]]) =
    walk ([errorsNew "outer"] ++
      (messengerWithDetails "middle" "override"
        [DetailValue.codeDetail (Code codes.NotFound),
         DetailValue.reason { Reason := "reason", Domain := "domain" }]).dropDetails ::
      [wrapNode "inner" [DetailValue.codeDetail (Code codes.Internal),
         DetailValue.reason { Reason := "reason", Domain := "domain" }]].map
        ErrorNode.dropDetails) :=
  ⟨rfl, by decide,
    (C16_asymmetric_guard [errorsNew "outer"]
      [wrapNode "inner" [DetailValue.codeDetail (Code codes.Internal),
         DetailValue.reason { Reason := "reason", Domain := "domain" }]]
      (messengerWithDetails "middle" "override"
        [DetailValue.codeDetail (Code codes.NotFound),
         DetailValue.reason { Reason := "reason", Domain := "domain" }])
      "override" rfl).1⟩

/-- C17 (detail accumulation order): for a chain for which status construction succeeds,
the details of the returned status are the concatenation over the nodes, outermost first,
of the converted details list of the node (only if the message is unset at that node)
followed by the node's own `ErrorDetail()` message if it is not nil; the own detail of
every node is among them whatever the state of code and message; nothing is removed. -/
theorem C17_detail_accumulation_order (head : ErrorNode) (tail : List ErrorNode)
    (st : Status) (err : GoError)
    (h : MapErrorToStatus (GoError.chain head tail) = (some st, err)) :
    st.details.map some = detailsInChainOrder false (head :: tail) ∧
    st.details.length = (detailsInChainOrder false (head :: tail)).length ∧
    (∀ n ∈ head :: tail, ∀ d : Message, n.ErrorDetail = some (some d) → d ∈ st.details) := by
  have hf : ¬ attachFails (walk (head :: tail)) := by
    intro hf
    obtain ⟨e2, h1, _⟩ := MapErrorToStatus_chain_fail head tail hf
    rw [h1] at h
    cases h
  have hnone : none ∉ (walk (head :: tail)).errDetails := by
    intro hn
    exact hf ⟨List.ne_nil_of_mem hn, Or.inr hn⟩
  rw [MapErrorToStatus_chain_ok head tail hf] at h
  have hst : st.details = (walk (head :: tail)).errDetails.filterMap id := by
    cases h
    rfl
  have hmap : st.details.map some = detailsInChainOrder false (head :: tail) := by
    rw [hst, map_some_filterMap_id _ hnone, walk_errDetails]
  refine ⟨hmap, ?_, ?_⟩
  · rw [← hmap, List.length_map]
  · intro n hn d hd
    have hmem : some d ∈ detailsInChainOrder false (head :: tail) :=
      ownDetail_subset_detailsInChainOrder (head :: tail) false n hn (some d)
        (by simp [ErrorNode.ownDetail, hd])
    rw [← hmap] at hmem
    simpa using hmem

/-- C17 at a chain of three nodes: a details list, then a message override with a details
list and an own detail, then an own detail. -/
theorem C17_detail_accumulation_order_witness :
    MapErrorToStatus (GoError.chain
      (wrapNode "outer" [DetailValue.reason { Reason := "reason", Domain := "domain" }])
      [{ Error := "middle", GRPCCode := some codes.NotFound, GRPCMessage := some "override",
         Details := some [DetailValue.reason { Reason := "skipped", Domain := "skipped" }],
         ErrorDetail := some (some (Message.RequestInfo "123" "")) },
       detailerNode "inner" (Message.RequestInfo "456" "")]) =
      (some { code := codes.NotFound, message := "override",
              details := [Message.ErrorInfo "reason" "domain" [],
                Message.RequestInfo "123" "", Message.RequestInfo "456" ""] },
        GoError.nil) ∧
    [Message.ErrorInfo "reason" "domain" [], Message.RequestInfo "123" "",
      Message.RequestInfo "456" ""].map some =
    detailsInChainOrder false
      (wrapNode "outer" [DetailValue.reason { Reason := "reason", Domain := "domain" }] ::
      [{ Error := "middle", GRPCCode := some codes.NotFound, GRPCMessage := some "override",
         Details := some [DetailValue.reason { Reason := "skipped", Domain := "skipped" }],
         ErrorDetail := some (some (Message.RequestInfo "123" "")) },
       detailerNode "inner" (Message.RequestInfo "456" "")]) :=
  ⟨by decide,
    (C17_detail_accumulation_order
      (wrapNode "outer" [DetailValue.reason { Reason := "reason", Domain := "domain" }])
      [{ Error := "middle", GRPCCode := some codes.NotFound, GRPCMessage := some "override",
         Details := some [DetailValue.reason { Reason := "skipped", Domain := "skipped" }],
         ErrorDetail := some (some (Message.RequestInfo "123" "")) },
       detailerNode "inner" (Message.RequestInfo "456" "")]
      { code := codes.NotFound, message := "override",
        details := [Message.ErrorInfo "reason" "domain" [],
          Message.RequestInfo "123" "", Message.RequestInfo "456" ""] }
      GoError.nil (by decide)).1⟩

/-- C18 (code from a details list): when no code has been set before a node and the
message is unset at it, the first code carrier of the node's details list, in list order,
sets the code, whatever follows it in the list or in the inner nodes; a code reported by
the node itself takes precedence over the code carriers of its own list; and every status
`MapErrorToStatus` returns for the chain has the code so chosen. -/
theorem C18_code_from_details_list (pre post : List ErrorNode) (n : ErrorNode)
    (ds : List DetailValue) (c : codes.Code)
    (hcs : (walk pre).codeSet = false) (hms : (walk pre).messageSet = false)
    (hm : n.GRPCMessage = none) (hd : n.Details = some ds)
    (hf : (ds.findSome? fun d => d.grpcCoder) = some c) :
    (n.GRPCCode = none → (walk (pre ++ n :: post)).code = c) ∧
    (∀ a : codes.Code, n.GRPCCode = some a → (walk (pre ++ n :: post)).code = a) ∧
    (∀ (st : Status) (err : GoError),
      MapErrorToStatus (GoError.ofNodes (pre ++ n :: post)) = (some st, err) →
      st.code = (walk (pre ++ n :: post)).code) := by
  have hwalk : walk (pre ++ n :: post) = post.foldl walkStep (walkStep (walk pre) n) := by
    unfold walk
    rw [List.foldl_append, List.foldl_cons]
  refine ⟨?_, ?_, ?_⟩
  · intro hc
    obtain ⟨h1, h2⟩ := walkStep_code_of_list (walk pre) n ds c hcs hms hc hm hd hf
    rw [hwalk, foldl_walkStep_code_of_codeSet post _ h2, h1]
  · intro a ha
    obtain ⟨h1, h2⟩ := walkStep_code_of_coder (walk pre) n a hcs ha
    rw [hwalk, foldl_walkStep_code_of_codeSet post _ h2, h1]
  · intro st err h
    cases pre with
    | nil =>
      simp only [List.nil_append, GoError.ofNodes] at h ⊢
      exact MapErrorToStatus_chain_code _ _ st (by rw [h])
    | cons p ps =>
      simp only [List.cons_append, GoError.ofNodes] at h ⊢
      exact MapErrorToStatus_chain_code _ _ st (by rw [h])

/-- C18 at the error of the test with a code detail, its list extended by a second code
carrier and wrapped around a node that reports a code itself. -/
theorem C18_code_from_details_list_witness :
    (walk ([errorsNew "outer"] ++
      wrapNode "random error"
        [DetailValue.nil, DetailValue.codeDetail (Code codes.FailedPrecondition),
         DetailValue.codeDetail (Code codes.Internal)] ::
      [coderNode "inner" codes.NotFound])).code = codes.FailedPrecondition ∧
    MapErrorToStatus (GoError.ofNodes ([errorsNew "outer"] ++
      wrapNode "random error"
        [DetailValue.nil, DetailValue.codeDetail (Code codes.FailedPrecondition),
         DetailValue.codeDetail (Code codes.Internal)] ::
      [coderNode "inner" codes.NotFound])) =
      (some { code := codes.FailedPrecondition, message := "outer", details := [] },
        GoError.nil) :=
  ⟨(C18_code_from_details_list [errorsNew "outer"] [coderNode "inner" codes.NotFound]
      (wrapNode "random error"
        [DetailValue.nil, DetailValue.codeDetail (Code codes.FailedPrecondition),
         DetailValue.codeDetail (Code codes.Internal)])
      [DetailValue.nil, DetailValue.codeDetail (Code codes.FailedPrecondition),
       DetailValue.codeDetail (Code codes.Internal)]
      codes.FailedPrecondition (by decide) (by decide) rfl rfl (by decide)).1 rfl,
    by decide⟩

/-- When no entry was collected from a chain, `MapErrorToStatus` returns, with a nil error,
the status made of the extracted code and message; it returns a non-nil error exactly
when at least one entry was collected and `WithDetails` fails on the entries, which is the
case when the extracted code is OK; and whenever it returns a non-nil error it returns no
status. -/
theorem MapErrorToStatus_fails_only_through_WithDetails (head : ErrorNode) (tail : List ErrorNode) :
    ((walk (head :: tail)).errDetails = [] →
      MapErrorToStatus (GoError.chain head tail) =
        (some (status.New (walk (head :: tail)).code
          (((head :: tail).findSome? fun n => n.GRPCMessage).getD head.Error)),
          GoError.nil)) ∧
    ((MapErrorToStatus (GoError.chain head tail)).2 ≠ GoError.nil ↔
      ((walk (head :: tail)).errDetails ≠ [] ∧
        (status.WithDetails
          (status.New (walk (head :: tail)).code
            (((head :: tail).findSome? fun n => n.GRPCMessage).getD head.Error))
          (walk (head :: tail)).errDetails).2 ≠ GoError.nil)) ∧
    ((walk (head :: tail)).errDetails ≠ [] → (walk (head :: tail)).code = codes.OK →
      (MapErrorToStatus (GoError.chain head tail)).2 ≠ GoError.nil) ∧
    ((MapErrorToStatus (GoError.chain head tail)).2 ≠ GoError.nil →
      (MapErrorToStatus (GoError.chain head tail)).1 = none) := by
  have hmsg := finalMessage_chain head tail
  have hrw := MapErrorToStatus_chain head tail
  rw [hmsg] at hrw
  by_cases hd : (walk (head :: tail)).errDetails = []
  · have hres : MapErrorToStatus (GoError.chain head tail) =
        (some (status.New (walk (head :: tail)).code
          (((head :: tail).findSome? fun n => n.GRPCMessage).getD head.Error)),
          GoError.nil) := by
      rw [hrw]
      simp [hd]
    refine ⟨fun _ => hres, ?_, ?_, ?_⟩
    · rw [hres]
      simp [hd]
    · intro h
      exact absurd hd h
    · rw [hres]
      simp
  · have hlen : (walk (head :: tail)).errDetails.length > 0 := List.length_pos.mpr hd
    have hres : MapErrorToStatus (GoError.chain head tail) =
        status.WithDetails
          (status.New (walk (head :: tail)).code
            (((head :: tail).findSome? fun n => n.GRPCMessage).getD head.Error))
          (walk (head :: tail)).errDetails := by
      rw [hrw]
      simp [hlen]
    refine ⟨fun h => absurd h hd, ?_, ?_, ?_⟩
    · rw [hres]
      simp [hd]
    · intro _ hc
      rw [hres]
      simp [status.WithDetails, status.New, hc]
    · rw [hres]
      exact WithDetails_fst_of_error _ _

/-- C19 (the code at the failing input): an error wrapped with a nil reference to a reason,
or with a detail producer whose `ErrorDetail()` returns nil, yields no detail message, yet
the converter appends a nil entry for it; one entry is then collected, attaching it
fails, and `MapErrorToStatus` returns an error and no status instead of the status with
the extracted code and message. -/
theorem C19_nil_entry_fails_construction :
    (walk (wrapped [DetailValue.reasonRef none]).nodes).errDetails = [none] ∧
    (walk (wrapped [DetailValue.reasonRef none]).nodes).errDetails.filterMap id = [] ∧
    (walk (wrapped [DetailValue.reasonRef none]).nodes).code = codes.Unknown ∧
    (MapErrorToStatus (wrapped [DetailValue.reasonRef none])).1 = none ∧
    (MapErrorToStatus (wrapped [DetailValue.reasonRef none])).2 ≠ GoError.nil ∧
    (walk (wrapped [DetailValue.detailer none none]).nodes).errDetails.filterMap id = [] ∧
    (MapErrorToStatus (wrapped [DetailValue.detailer none none])).1 = none ∧
    (MapErrorToStatus (wrapped [DetailValue.detailer none none])).2 ≠ GoError.nil ∧
    MapErrorToStatus (wrapped []) =
      (some { code := codes.Unknown, message := "random error", details := [] },
        GoError.nil) := by
  decide

/-- C11, as stated, fails: the outermost node holds the code carrier NotFound and the
reason in its details list and no node overrides the message, but the wrapped cause has a
detail message of its own; the recovered status then has two details, not exactly one. -/
theorem C11_counterexample :
    (wrapNode "status message"
      [DetailValue.codeDetail (Code codes.NotFound),
       DetailValue.reasonRef (some { Reason := "reason", Domain := "domain" })]).GRPCMessage =
      none ∧
    (detailerNode "status message" (Message.RequestInfo "123" "")).GRPCMessage = none ∧
    MapErrorInterceptor () () ()
      (constHandler "response" (GoError.chain
        (wrapNode "status message"
          [DetailValue.codeDetail (Code codes.NotFound),
           DetailValue.reasonRef (some { Reason := "reason", Domain := "domain" })])
        [detailerNode "status message" (Message.RequestInfo "123" "")])) =
      ("response", GoError.status
        { code := codes.NotFound, message := "status message",
          details := [Message.ErrorInfo "reason" "domain" [],
            Message.RequestInfo "123" ""] }) ∧
    ¬ ∃ st : Status,
      status.FromError (MapErrorInterceptor () () ()
        (constHandler "response" (GoError.chain
          (wrapNode "status message"
            [DetailValue.codeDetail (Code codes.NotFound),
             DetailValue.reasonRef (some { Reason := "reason", Domain := "domain" })])
          [detailerNode "status message" (Message.RequestInfo "123" "")]))).2 =
        (some st, true) ∧ st.details.length = 1 := by
  have h : MapErrorInterceptor () () ()
      (constHandler "response" (GoError.chain
        (wrapNode "status message"
          [DetailValue.codeDetail (Code codes.NotFound),
           DetailValue.reasonRef (some { Reason := "reason", Domain := "domain" })])
        [detailerNode "status message" (Message.RequestInfo "123" "")])) =
      ("response", GoError.status
        { code := codes.NotFound, message := "status message",
          details := [Message.ErrorInfo "reason" "domain" [],
            Message.RequestInfo "123" ""] }) := by
    decide
  refine ⟨rfl, rfl, h, ?_⟩
  rintro ⟨st, h1, h2⟩
  rw [h] at h1
  simp only [status.FromError, Prod.mk.injEq, Option.some.injEq, and_true] at h1
  subst h1
  simp at h2

/-- C11 (end-to-end scenario), amended: for a handler that returns an error whose
outermost node reports no code, no message and no detail of its own and whose details list
is the code carrier with code NotFound followed by a reason+domain pair `(r, d)`, by value
or by non-nil reference, and whose inner nodes override no message and contribute no
detail, the interceptor returns the response of the handler and a non-nil error: the error
form of the status with code NotFound, the text of the original error as message and
exactly one detail, the error-info message with `Reason = r` and `Domain = d`; that status
is recovered from the error by `status.FromError`. -/
theorem C11_end_to_end {Ctx Req Info Resp : Type} (ctx : Ctx) (req : Req) (info : Info)
    (handler : Ctx → Req → Resp × GoError) (resp : Resp) (head : ErrorNode)
    (tail : List ErrorNode) (rv : DetailValue) (r d : String)
    (h : handler ctx req = (resp, GoError.chain head tail))
    (hc : head.GRPCCode = none) (hm : head.GRPCMessage = none) (ho : head.ownDetail = [])
    (hd : head.Details = some [DetailValue.codeDetail (Code codes.NotFound), rv])
    (hrv : rv = DetailValue.reason { Reason := r, Domain := d } ∨
      rv = DetailValue.reasonRef (some { Reason := r, Domain := d }))
    (ht : ∀ n ∈ tail, n.GRPCMessage = none ∧ n.listDetails = [] ∧ n.ownDetail = []) :
    MapErrorInterceptor ctx req info handler =
      (resp, GoError.status
        { code := codes.NotFound, message := (GoError.chain head tail).Error,
          details := [Message.ErrorInfo r d []] }) ∧
    (MapErrorInterceptor ctx req info handler).2 ≠ GoError.nil ∧
    status.FromError (MapErrorInterceptor ctx req info handler).2 =
      (some { code := codes.NotFound, message := (GoError.chain head tail).Error,
              details := [Message.ErrorInfo r d []] }, true) := by
  have hlist : head.listDetails = [some (Message.ErrorInfo r d [])] := by
    rcases hrv with hrv | hrv <;>
      simp [ErrorNode.listDetails, hd, hrv, detailsToProto, detailsToProtoStep, reasonToProto]
  have hdet : (walk (head :: tail)).errDetails = [some (Message.ErrorInfo r d [])] := by
    rw [walk_errDetails]
    simp [detailsInChainOrder, hm, ho, hlist, detailsInChainOrder_of_silent tail ht]
  have hcode : (walk (head :: tail)).code = codes.NotFound := by
    have hf : ([DetailValue.codeDetail (Code codes.NotFound), rv].findSome?
        fun x => x.grpcCoder) = some codes.NotFound := by
      simp [List.findSome?_cons, DetailValue.grpcCoder, CodeDetail.GRPCCode, Code]
    obtain ⟨h1, h2⟩ := walkStep_code_of_list WalkState.init head _ codes.NotFound rfl rfl
      hc hm hd hf
    show (tail.foldl walkStep (walkStep WalkState.init head)).code = codes.NotFound
    rw [foldl_walkStep_code_of_codeSet tail _ h2, h1]
  have hmsg : finalMessage (GoError.chain head tail) (walk (head :: tail)) = head.Error := by
    rw [finalMessage_chain, findSome_GRPCMessage_of_none (head :: tail) (by
      intro n hn
      rcases List.mem_cons.mp hn with h1 | h1
      · rw [h1]
        exact hm
      · exact (ht n h1).1)]
    rfl
  have hnf : ¬ attachFails (walk (head :: tail)) := by
    unfold attachFails
    rw [hdet, hcode]
    simp [codes.NotFound, codes.OK]
  have hres := MapErrorToStatus_chain_ok head tail hnf
  rw [hdet, hcode, hmsg] at hres
  have hint := MapErrorInterceptor_of_error ctx req info handler resp _ h (by simp)
  rw [hres] at hint
  have hfin : MapErrorInterceptor ctx req info handler =
      (resp, GoError.status
        { code := codes.NotFound, message := (GoError.chain head tail).Error,
          details := [Message.ErrorInfo r d []] }) := by
    rw [hint]
    simp [status.Err, codes.NotFound, codes.OK, GoError.Error]
  rw [hfin]
  exact ⟨rfl, by simp, rfl⟩

/-- C11 at the handler of the test: its error is "status message" wrapped with
`Code(NotFound)` and the reason ("reason", "domain"). -/
theorem C11_end_to_end_witness :
    MapErrorInterceptor () () ()
      (constHandler "response" (GoError.chain
        (wrapNode "status message"
          [DetailValue.codeDetail (Code codes.NotFound),
           DetailValue.reasonRef (some { Reason := "reason", Domain := "domain" })])
        [errorsNew "status message"])) =
      ("response", GoError.status
        { code := codes.NotFound, message := "status message",
          details := [Message.ErrorInfo "reason" "domain" []] }) :=
  (C11_end_to_end () () () (constHandler "response" (GoError.chain
      (wrapNode "status message"
        [DetailValue.codeDetail (Code codes.NotFound),
         DetailValue.reasonRef (some { Reason := "reason", Domain := "domain" })])
      [errorsNew "status message"])) "response"
    (wrapNode "status message"
      [DetailValue.codeDetail (Code codes.NotFound),
       DetailValue.reasonRef (some { Reason := "reason", Domain := "domain" })])
    [errorsNew "status message"]
    (DetailValue.reasonRef (some { Reason := "reason", Domain := "domain" }))
    "reason" "domain" rfl rfl rfl rfl rfl (Or.inr rfl)
    (by simp [errorsNew, ErrorNode.listDetails, ErrorNode.ownDetail])).1

end GrpcErrors
